import Mathlib

/-
  Verification development for the `iso` repository (Rust):
  a shallow embedding of the build-time enum/conversion generator in
  `src/macro/src/lib.rs` and of the thin runtime layer in
  `src/lib/src/country.rs` and `src/lib/src/language.rs`.

  Modelling conventions:
  * Rust `panic!`, `unwrap()` and out-of-bounds indexing are modelled as
    `Except.error (GenError.panicked msg)`; emitted compiler diagnostics
    (`Diagnostic::new(..).note(..).emit()` followed by `return None`) are
    modelled as `Except.error (GenError.diagnostic msg note)`.
  * File I/O is not modelled: the language loader takes the list of lines of
    the file and the country loader takes an already-lexed JSON value.
  * Rust strings are Lean `String`s; `str::len()` is `String.utf8ByteSize`
    (Rust string length is in UTF-8 bytes).
  * `Ident::new` panics when its argument is not a legal identifier; this
    validity test is modelled by `identNew` (exact on ASCII, see its comment).
  * The proc-macro token input is modelled structurally as `GenerationInput`
    (the result of the `Parse` impl), and the emitted `TokenStream` is
    modelled as `Output`: either an enumeration declaration, a match
    construct (row fragments plus an optional trailing `_ => None` arm,
    recorded in the `fallback` flag), or a `compile_error!` invocation.
-/

-- ## Errors arising during generation

inductive GenError where
  | panicked (msg : String)
  | diagnostic (msg note : String)
deriving DecidableEq

-- ## Key registries (src/macro/src/lib.rs lines 74-167)

/-- `LanguageTableEntryKey` from the macro crate. -/
inductive LanguageTableEntryKey where
  | Iso639_3
  | Iso639_2b
  | Iso639_2t
  | Iso639_1
  | Name
deriving DecidableEq

/-- `LanguageTableEntryKey::as_standard_code` (lines 84-92). -/
def LanguageTableEntryKey.as_standard_code : LanguageTableEntryKey → Option String
  | .Iso639_3 => some "639-3"
  | .Iso639_2b => some "639-2b"
  | .Iso639_2t => some "639-2t"
  | .Iso639_1 => some "639-1"
  | .Name => none

/-- `TryInto<&'static str> for LanguageTableEntryKey` (lines 110-122). -/
def LanguageTableEntryKey.try_into_str : LanguageTableEntryKey → Except String String
  | .Iso639_3 => .ok "Iso639_3"
  | .Iso639_2b => .ok "Iso639_2b"
  | .Iso639_2t => .ok "Iso639_2t"
  | .Iso639_1 => .ok "Iso639_1"
  | .Name => .error "unable to find a matching string"

/-- `CountryIdentifierKey` from the macro crate (lines 124-130). -/
inductive CountryIdentifierKey where
  | Alpha2
  | Alpha3
  | Numeric
  | Name
deriving DecidableEq

/-- `CountryIdentifierKey::as_standard_code` (lines 132-141). -/
def CountryIdentifierKey.as_standard_code : CountryIdentifierKey → Option String
  | .Alpha2 => some "3166-1 alpha-2"
  | .Alpha3 => some "3166-1 alpha-3"
  | .Numeric => some "3166-1 numeric"
  | .Name => none

/-- `TryInto<&'static str> for CountryIdentifierKey` (lines 157-167). -/
def CountryIdentifierKey.try_into_str : CountryIdentifierKey → Except String String
  | .Alpha2 => .ok "Iso3166_1_alpha_2"
  | .Alpha3 => .ok "Iso3166_1_alpha_3"
  | .Numeric => .error "unable to find a matching string"
  | .Name => .error "unable to find a matching string"

-- ## Country dataset records and their JSON deserialization

/-- `CountryEntry` (lines 63-71): the four fields of one country record. -/
structure CountryEntry where
  name : String
  alpha_2 : String
  alpha_3 : String
  country_code : String
deriving DecidableEq

/--
A minimal JSON value model. The constructor `other` stands for every JSON
form the loader rejects anyway (numbers, booleans, null): the derived serde
deserializer requires a top-level array of objects whose relevant fields are
strings, and reports a type error for anything else.
-/
inductive Json where
  | str (s : String)
  | arr (elems : List Json)
  | obj (fields : List (String × Json))
  | other

/--
Field lookup as performed by the derived `Deserialize` impl: exactly one
occurrence of the key must be present and its value must be a string;
a missing field, a duplicated field and a non-string value are errors.
-/
def getStringField (fields : List (String × Json)) (key : String) : Except String String :=
  match fields.filter (fun f => f.fst == key) with
  | [] => .error ("missing field `" ++ key ++ "`")
  | [(_, Json.str s)] => .ok s
  | [_] => .error ("invalid type for field `" ++ key ++ "`")
  | _ => .error ("duplicate field `" ++ key ++ "`")

/--
The derived `Deserialize` for `CountryEntry`. Because of
`#[serde(rename_all = "kebab-case")]` (line 65) the JSON member names are the
kebab-case conversions of the Rust field names: `name`, `alpha-2`, `alpha-3`,
`country-code`.
-/
def deserializeCountryEntry (j : Json) : Except String CountryEntry :=
  match j with
  | Json.obj fields => do
    let n ← getStringField fields "name"
    let a2 ← getStringField fields "alpha-2"
    let a3 ← getStringField fields "alpha-3"
    let cc ← getStringField fields "country-code"
    pure ⟨n, a2, a3, cc⟩
  | _ => .error "invalid type: expected a map"

/-- Deserialization of the top-level `Vec<CountryEntry>`. -/
def deserializeCountryVec (j : Json) : Except String (List CountryEntry) :=
  match j with
  | Json.arr elems => elems.mapM deserializeCountryEntry
  | _ => .error "invalid type: expected a sequence"

/--
`parse_country_codes` (lines 169-201), from the already-read JSON value.
A serde failure becomes the emitted diagnostic
"Unable to parse the country code dataset" with the serde error as its note.
-/
def parse_country_codes (j : Json) : Except GenError (List CountryEntry) :=
  match deserializeCountryVec j with
  | .ok entries => .ok entries
  | .error e => .error (.diagnostic "Unable to parse the country code dataset" e)

-- ## Language dataset records and the tab-separated loader

/--
One parsed language table row: the `HashMap<LanguageTableEntryKey, String>`
built by `parse_language_table`, with one optional slot per possible key.
-/
structure LanguageEntry where
  iso639_3 : Option String
  iso639_2b : Option String
  iso639_2t : Option String
  iso639_1 : Option String
  name : Option String
deriving DecidableEq

/-- `HashMap::get` on a language row. -/
def LanguageEntry.get (e : LanguageEntry) (k : LanguageTableEntryKey) : Option String :=
  match k with
  | .Iso639_3 => e.iso639_3
  | .Iso639_2b => e.iso639_2b
  | .Iso639_2t => e.iso639_2t
  | .Iso639_1 => e.iso639_1
  | .Name => e.name

/-- `HashMap` indexing `table_entry[key]`, which panics on a missing key. -/
def LanguageEntry.index (e : LanguageEntry) (k : LanguageTableEntryKey) : Except GenError String :=
  match e.get k with
  | some v => .ok v
  | none => .error (.panicked "key not found")

/-- `Vec` indexing `line[i]`, which panics when out of bounds. -/
def listIndex (l : List String) (i : Nat) : Except GenError String :=
  match l.get? i with
  | some v => .ok v
  | none =>
    .error (.panicked ("index out of bounds: the len is " ++ toString l.length
      ++ " but the index is " ++ toString i))

/--
`str::split(sep)` of Rust on a whole string, by structural recursion over the
characters (so that it computes by kernel reduction). Splitting the empty
string yields `[""]`, and separators at either end yield empty pieces, exactly
as in Rust.
-/
def splitChar (sep : Char) : List Char → List (List Char)
  | [] => [[]]
  | c :: rest =>
    let r := splitChar sep rest
    if c = sep then [] :: r
    else
      match r with
      | h :: t => (c :: h) :: t
      | [] => [[c]]

def rustSplit (sep : Char) (s : String) : List String :=
  (splitChar sep s.data).map String.mk

/--
The body of the per-line closure of `parse_language_table` (lines 224-246):
split the line on tabs and build the keyed record. Column 0 and column 6 are
always inserted; columns 1 and 2 only when their byte length is exactly 3;
column 3 only when its byte length is exactly 2. All five index accesses
panic when the line has too few columns.
-/
def buildLanguageEntry (cols : List String) : Except GenError LanguageEntry := do
  let c0 ← listIndex cols 0
  let c1 ← listIndex cols 1
  let c2 ← listIndex cols 2
  let c3 ← listIndex cols 3
  let c6 ← listIndex cols 6
  pure ⟨some c0,
    if c1.utf8ByteSize = 3 then some c1 else none,
    if c2.utf8ByteSize = 3 then some c2 else none,
    if c3.utf8ByteSize = 2 then some c3 else none,
    some c6⟩

def parseLanguageLines : List String → Except GenError (List LanguageEntry)
  | [] => .ok []
  | l :: rest => do
    let e ← buildLanguageEntry (rustSplit '\t' l)
    let es ← parseLanguageLines rest
    pure (e :: es)

/--
`parse_language_table` (lines 203-249), from the list of lines of the file:
the first line (the header) is skipped, every later line is parsed by
`buildLanguageEntry`.
-/
def parse_language_table (lines : List String) : Except GenError (List LanguageEntry) :=
  parseLanguageLines (lines.drop 1)

-- ## The normalization utility (lines 345-352)

/-- Bytewise `u8::make_ascii_uppercase`, lifted to one character. -/
def make_ascii_uppercase (c : Char) : Char :=
  if 'a' ≤ c && c ≤ 'z' then Char.ofNat (c.toNat - 32) else c

/-- Bytewise `u8::make_ascii_lowercase`, lifted to one character. -/
def make_ascii_lowercase (c : Char) : Char :=
  if 'A' ≤ c && c ≤ 'Z' then Char.ofNat (c.toNat + 32) else c

/--
`ascii_formatter`. The source mutates `string.get_mut(0..1)` and
`string.get_mut(1..)`; both sub-slice accesses succeed exactly when the string
is non-empty and its first character is a single UTF-8 byte (so that byte
offset 1 is a character boundary), and both are skipped otherwise. When they
succeed, the first byte is ASCII-uppercased and every remaining byte is
ASCII-lowercased; `make_ascii_lowercase` only touches the bytes 0x41-0x5A,
which occur in UTF-8 only as one-byte characters, so the bytewise mutation is
exactly a character-wise map.
-/
def ascii_formatter (s : String) : String :=
  match s.data with
  | [] => s
  | c :: rest =>
    if c.utf8Size = 1 then
      String.mk (make_ascii_uppercase c :: rest.map make_ascii_lowercase)
    else s

-- ## `u16::from_str` (used by `codes.country_code.parse::<u16>()`)

/--
Rust `str::parse::<u16>()`: an optional leading `+`, then one or more ASCII
digits, rejecting every other character, the empty digit string, and values
not representable in 16 bits.
-/
def parseU16 (s : String) : Option Nat :=
  let ds := match s.data with
    | '+' :: rest => rest
    | l => l
  if ds.isEmpty then none
  else if ds.all (fun c => '0' ≤ c && c ≤ '9') then
    let n := ds.foldl (fun acc c => acc * 10 + (c.toNat - 48)) 0
    if n < 65536 then some n else none
  else none

-- ## The generation request (lines 263-343)

/--
`GenerationInput<K>`: the parsed macro input. `match_against` records whether
a `match` subject was given (the subject tokens themselves play no role in
what is generated, only the scrutinee supplied at run time does). In each
side, the boolean is the source's "is a string literal" flag: `true` when the
side was written as a string literal, `false` when written as a bare
identifier.
-/
structure GenerationInput (K : Type) where
  enumeration : Option String
  match_against : Bool
  lhs : K × Bool
  rhs : Option (K × Bool)
deriving DecidableEq

-- ## The emitted code fragments

/-- A pattern on the left of an emitted match arm. -/
inductive Pat where
  | str (s : String)
  | num (n : Nat)
  | variant (path v : String)
deriving DecidableEq

/-- An emitted expression (match-arm right side or bare row fragment). -/
inductive Exp where
  | litStr (s : String)
  | litNum (n : Nat)
  | bare (v : String)
  | variant (path v : String)
  | someVariant (path v : String)
  | noneValue
deriving DecidableEq

/-- One generated row fragment: either a bare expression or a match arm. -/
inductive RowFrag where
  | exp (e : Exp)
  | arm (p : Pat) (e : Exp)
deriving DecidableEq

/--
The assembled macro output: an enumeration declaration, a match construct
(`fallback = true` means the unconditional `_ => None` arm is appended after
the row arms), or a `compile_error!` invocation.
-/
inductive Output where
  | enumDecl (enumName : String) (frags : List RowFrag)
  | matchConstruct (frags : List RowFrag) (fallback : Bool)
  | compileErr
deriving DecidableEq

/-- Lift the `Err` of `try_into()` to the panic of `.unwrap()`. -/
def unwrapStr (x : Except String String) : Except GenError String :=
  match x with
  | .ok s => .ok s
  | .error _ => .error (.panicked "called `Result::unwrap()` on an `Err` value")

-- ## `Ident::new` and its validity panic

/-- Is `c` in `a-z`, `A-Z` or `_` (a legal first identifier character)? -/
def identCharStart (c : Char) : Bool :=
  (97 ≤ c.toNat && c.toNat ≤ 122) || (65 ≤ c.toNat && c.toNat ≤ 90) || c.toNat = 95

/-- Is `c` an ASCII digit `0-9`? -/
def isAsciiDigit (c : Char) : Bool :=
  48 ≤ c.toNat && c.toNat ≤ 57

/-- Is `c` legal after the first identifier character? -/
def identCharContinue (c : Char) : Bool :=
  identCharStart c || isAsciiDigit c

/-- Is `s` a legal identifier: non-empty, a start character, then continue characters? -/
def identOk (s : String) : Bool :=
  match s.data with
  | [] => false
  | c :: rest => identCharStart c && rest.all identCharContinue

/--
`proc_macro2::Ident::new` (called by `syn::Ident::new` at lines 391, 423,
451, 467, 478, 556, 571, 586, 603, 610): it panics on the empty string, on a
string of only digits, and on any string that is not a legal identifier, and
otherwise returns the identifier. The identifier classes are modelled
exactly for ASCII (first character a letter or `_`, remainder letters,
digits or `_`); for code points at or above 0x80 the source consults the
Unicode XID tables, which this model conservatively rejects — every theorem
below either instantiates ASCII values or assumes `identOk` of the values in
identifier position, and on ASCII strings the test is exact. (The `Ident`s
built from the fixed enum path names and from the parsed enumeration name
are always legal and need no test.)
-/
def identNew (s : String) : Except GenError String :=
  match s.data with
  | [] => .error (.panicked "Ident is not allowed to be empty; use Option<Ident>")
  | c :: rest =>
    if (c :: rest).all isAsciiDigit then
      .error (.panicked "Ident cannot be a number; use Literal instead")
    else if identCharStart c && rest.all identCharContinue then
      .ok s
    else
      .error (.panicked ("\"" ++ s ++ "\" is not a valid Ident"))

-- ## The country emitter (lines 354-528)

/--
The literal produced for one country key (the repeated
`match &lhs_key/&rhs_key` blocks producing `Literal`s): alpha-2, alpha-3 and
name become string literals, the numeric key becomes an unsuffixed `u16`
literal via `codes.country_code.parse().unwrap()` (which panics when the
field does not parse).
-/
def countryLiteralExp (k : CountryIdentifierKey) (e : CountryEntry) : Except GenError Exp :=
  match k with
  | .Alpha2 => .ok (.litStr e.alpha_2)
  | .Alpha3 => .ok (.litStr e.alpha_3)
  | .Numeric =>
    match parseU16 e.country_code with
    | some n => .ok (.litNum n)
    | none => .error (.panicked "called `Result::unwrap()` on an `Err` value")
  | .Name => .ok (.litStr e.name)

/-- The same literal in pattern position (left side of an arm). -/
def countryLiteralPat (k : CountryIdentifierKey) (e : CountryEntry) : Except GenError Pat :=
  match k with
  | .Alpha2 => .ok (.str e.alpha_2)
  | .Alpha3 => .ok (.str e.alpha_3)
  | .Numeric =>
    match parseU16 e.country_code with
    | some n => .ok (.num n)
    | none => .error (.panicked "called `Result::unwrap()` on an `Err` value")
  | .Name => .ok (.str e.name)

/--
The raw string for a country key used as an identifier: alpha-2 and alpha-3
only; the numeric and name keys panic.
-/
def countryIdentName (k : CountryIdentifierKey) (e : CountryEntry) : Except GenError String :=
  match k with
  | .Alpha2 => .ok e.alpha_2
  | .Alpha3 => .ok e.alpha_3
  | .Numeric => .error (.panicked "numeric identifiers cannot be used as an identifier")
  | .Name => .error (.panicked "names cannot be used as an identifier")

/--
One iteration of the row loop of `country_identifiers_from_table`
(lines 366-487), by cases on the literal flags of the two sides.
-/
def countryRow (lhs : CountryIdentifierKey × Bool) (rhs : Option (CountryIdentifierKey × Bool))
    (e : CountryEntry) : Except GenError RowFrag :=
  match lhs, rhs with
  | (lk, true), none =>
    match lk with
    | .Alpha2 => .ok (.exp (.litStr e.alpha_2))
    | .Alpha3 => .ok (.exp (.litStr e.alpha_3))
    | .Numeric => .error (.panicked "numeric identifiers cannot be used alone")
    | .Name => .error (.panicked "names cannot be used alone")
  | (lk, false), none => do
    let s ← countryIdentName lk e
    let lv ← identNew (ascii_formatter s)
    pure (.exp (.bare lv))
  | (lk, true), some (rk, true) => do
    let l ← countryLiteralPat lk e
    let r ← countryLiteralExp rk e
    pure (.arm l r)
  | (lk, false), some (rk, true) => do
    let s ← countryIdentName lk e
    let lv ← identNew (ascii_formatter s)
    let lpath ← unwrapStr lk.try_into_str
    let r ← countryLiteralExp rk e
    pure (.arm (.variant lpath lv) r)
  | (lk, true), some (rk, false) => do
    let l ← countryLiteralPat lk e
    let s ← countryIdentName rk e
    let rv ← identNew (ascii_formatter s)
    let rpath ← unwrapStr rk.try_into_str
    pure (.arm l (.someVariant rpath rv))
  | (lk, false), some (rk, false) => do
    let ls ← countryIdentName lk e
    let lv ← identNew (ascii_formatter ls)
    let lpath ← unwrapStr lk.try_into_str
    let rs ← countryIdentName rk e
    let rv ← identNew (ascii_formatter rs)
    let rpath ← unwrapStr rk.try_into_str
    pure (.arm (.variant lpath lv) (.variant rpath rv))

/-- The full row loop over the country dataset, aborting at the first panic. -/
def countryRows (lhs : CountryIdentifierKey × Bool) (rhs : Option (CountryIdentifierKey × Bool)) :
    List CountryEntry → Except GenError (List RowFrag)
  | [] => .ok []
  | e :: rest => do
    let f ← countryRow lhs rhs e
    let fs ← countryRows lhs rhs rest
    pure (f :: fs)

/--
Final assembly shared by both proc macros (lines 489-527 and 627-665): an
enumeration request emits the declaration when the discriminant key has a
standard designation and `compile_error!` otherwise; a match request emits
the match construct, appending the `_ => None` fallback arm exactly when the
left side is a literal (`if lhs.1`); with neither, `compile_error!`.
-/
def assembleOutput {K : Type} (stdCode : Option String) (inp : GenerationInput K)
    (frags : List RowFrag) : Output :=
  match inp.enumeration with
  | some enumName =>
    match stdCode with
    | some _ => .enumDecl enumName frags
    | none => .compileErr
  | none =>
    if inp.match_against then .matchConstruct frags inp.lhs.snd else .compileErr

/-- `country_identifiers_from_table` (lines 354-528), given the parsed dataset. -/
def country_identifiers_from_table (rows : List CountryEntry)
    (inp : GenerationInput CountryIdentifierKey) : Except GenError Output :=
  match countryRows inp.lhs inp.rhs rows with
  | .ok frags => .ok (assembleOutput inp.lhs.fst.as_standard_code inp frags)
  | .error e => .error e

-- ## The language emitter (lines 530-666)

/--
One iteration of the row loop of `language_identifiers_from_table`
(lines 546-624), for a row that was not skipped. Literal sides index the row
map directly (`table_entry[key]`, panicking on absence); an identifier right
side uses `get` and produces `Some(..)`/`None` according to presence.
-/
def languageRow (lhs : LanguageTableEntryKey × Bool) (rhs : Option (LanguageTableEntryKey × Bool))
    (e : LanguageEntry) : Except GenError RowFrag :=
  match lhs, rhs with
  | (lk, true), none => do
    let v ← e.index lk
    pure (.exp (.litStr v))
  | (lk, false), none => do
    let v ← e.index lk
    let lv ← identNew (ascii_formatter v)
    pure (.exp (.bare lv))
  | (lk, true), some (rk, true) => do
    let l ← e.index lk
    let r ← e.index rk
    pure (.arm (.str l) (.litStr r))
  | (lk, false), some (rk, true) => do
    let l ← e.index lk
    let lv ← identNew (ascii_formatter l)
    let lpath ← unwrapStr lk.try_into_str
    let r ← e.index rk
    pure (.arm (.variant lpath lv) (.litStr r))
  | (lk, true), some (rk, false) => do
    let l ← e.index lk
    match e.get rk with
    | some rv0 => do
      let rv ← identNew (ascii_formatter rv0)
      let rpath ← unwrapStr rk.try_into_str
      pure (.arm (.str l) (.someVariant rpath rv))
    | none => pure (.arm (.str l) .noneValue)
  | (lk, false), some (rk, false) => do
    let l ← e.index lk
    let lv ← identNew (ascii_formatter l)
    let lpath ← unwrapStr lk.try_into_str
    match e.get rk with
    | some rv0 => do
      let rv ← identNew (ascii_formatter rv0)
      let rpath ← unwrapStr rk.try_into_str
      pure (.arm (.variant lpath lv) (.someVariant rpath rv))
    | none => pure (.arm (.variant lpath lv) .noneValue)

/--
The full row loop over the language table: a row whose left key is absent is
skipped (`continue`, lines 543-545), every other row contributes a fragment.
-/
def languageRows (lhs : LanguageTableEntryKey × Bool)
    (rhs : Option (LanguageTableEntryKey × Bool)) :
    List LanguageEntry → Except GenError (List RowFrag)
  | [] => .ok []
  | e :: rest =>
    if (e.get lhs.fst).isNone then languageRows lhs rhs rest
    else do
      let f ← languageRow lhs rhs e
      let fs ← languageRows lhs rhs rest
      pure (f :: fs)

/-- `language_identifiers_from_table` (lines 530-666), given the parsed table. -/
def language_identifiers_from_table (entries : List LanguageEntry)
    (inp : GenerationInput LanguageTableEntryKey) : Except GenError Output :=
  match languageRows inp.lhs inp.rhs entries with
  | .ok frags => .ok (assembleOutput inp.lhs.fst.as_standard_code inp frags)
  | .error e => .error e

-- ## Semantics of an emitted match construct

/-- A scrutinee value a generated match can be applied to. -/
inductive Scrut where
  | str (s : String)
  | num (n : Nat)
  | variant (path v : String)
deriving DecidableEq

def patMatches (p : Pat) (s : Scrut) : Bool :=
  match p, s with
  | .str a, .str b => a == b
  | .num a, .num b => a == b
  | .variant pa va, .variant pb vb => pa == pb && va == vb
  | _, _ => false

def fragMatches (s : Scrut) (f : RowFrag) : Bool :=
  match f with
  | .arm p _ => patMatches p s
  | .exp _ => false

def scrutOfPat : Pat → Scrut
  | .str s => .str s
  | .num n => .num n
  | .variant p v => .variant p v

/--
Rust match evaluation: the expression of the first arm whose pattern equals
the scrutinee; when no arm matches, the appended `_ => None` arm applies if
present, and otherwise no value is produced (a match without the fallback is
only exhaustive over the variant space it was generated together with).
-/
def evalMatchOutput (o : Output) (s : Scrut) : Option Exp :=
  match o with
  | .matchConstruct frags fallback =>
    (match frags.find? (fragMatches s) with
     | some (.arm _ e) => some e
     | some (.exp _) => none
     | none => if fallback then some .noneValue else none)
  | _ => none

-- ## The thin runtime layer (src/lib/src/country.rs, src/lib/src/language.rs)

/-- `iso::country::Error` (country.rs lines 53-56). -/
inductive CountryError where
  | InvalidCountryCode (s : String)
deriving DecidableEq

/-- `iso::language::Error` (language.rs lines 56-62). -/
inductive LanguageError where
  | InvalidLanguageCode (s : String)
  | NoCorrespondingLanguageCode (c : String)
deriving DecidableEq

/-- `Option::ok_or`. -/
def okOr {α ε : Type} (o : Option α) (e : ε) : Except ε α :=
  match o with
  | some a => .ok a
  | none => .error e

/-- A `match subject: lhs => rhs` macro invocation. -/
def matchRequest {K : Type} (lhs : K × Bool) (rhs : Option (K × Bool)) : GenerationInput K :=
  ⟨none, true, lhs, rhs⟩

/-- An `enum Name: key` macro invocation. -/
def enumRequest {K : Type} (enumName : String) (k : K) : GenerationInput K :=
  ⟨some enumName, false, (k, false), none⟩

/-- Generate a country match construct and apply it to a scrutinee. -/
def countryConvert (rows : List CountryEntry) (inp : GenerationInput CountryIdentifierKey)
    (s : Scrut) : Option Exp :=
  match country_identifiers_from_table rows inp with
  | .ok o => evalMatchOutput o s
  | .error _ => none

/-- Generate a language match construct and apply it to a scrutinee. -/
def languageConvert (entries : List LanguageEntry) (inp : GenerationInput LanguageTableEntryKey)
    (s : Scrut) : Option Exp :=
  match language_identifiers_from_table entries inp with
  | .ok o => evalMatchOutput o s
  | .error _ => none

def matchSomeVariant : Option Exp → Option (String × String)
  | some (.someVariant p v) => some (p, v)
  | _ => none

def matchVariant : Option Exp → Option (String × String)
  | some (.variant p v) => some (p, v)
  | _ => none

def matchLitStr : Option Exp → Option String
  | some (.litStr s) => some s
  | _ => none

def matchLitNum : Option Exp → Option Nat
  | some (.litNum n) => some n
  | _ => none

/-- The enum type name generated for an identifier-bearing country key. -/
def countryPathName : CountryIdentifierKey → String
  | .Alpha2 => "Iso3166_1_alpha_2"
  | .Alpha3 => "Iso3166_1_alpha_3"
  | .Numeric => ""
  | .Name => ""

/-- The raw dataset field value selected by a country key. -/
def countryVal : CountryIdentifierKey → CountryEntry → String
  | .Alpha2, e => e.alpha_2
  | .Alpha3, e => e.alpha_3
  | .Numeric, e => e.country_code
  | .Name, e => e.name

/-- The enum type name generated for an identifier-bearing language key. -/
def langPathName : LanguageTableEntryKey → String
  | .Iso639_3 => "Iso639_3"
  | .Iso639_2b => "Iso639_2b"
  | .Iso639_2t => "Iso639_2t"
  | .Iso639_1 => "Iso639_1"
  | .Name => ""

/--
`Country::code` for the enumeration keyed by `k` (country.rs lines 96-98),
applied to the variant named `v`: `match &self: K => "K"`.
-/
def countryCode (rows : List CountryEntry) (k : CountryIdentifierKey) (v : String) :
    Option String :=
  matchLitStr (countryConvert rows (matchRequest (k, false) (some (k, true)))
    (.variant (countryPathName k) v))

/--
`FromStr` for the country enumeration keyed by `k` (country.rs lines 115-121):
`match s: "K" => K` followed by `.ok_or(Error::InvalidCountryCode(..))`.
-/
def countryFromStr (rows : List CountryEntry) (k : CountryIdentifierKey) (s : String) :
    Except CountryError (String × String) :=
  okOr (matchSomeVariant (countryConvert rows (matchRequest (k, true) (some (k, false)))
    (.str s))) (.InvalidCountryCode s)

/--
`Country::numeric` for the enumeration keyed by `k` (country.rs lines 92-94):
`match &self: K => "Iso3166_1_numeric"`.
-/
def countryNumeric (rows : List CountryEntry) (k : CountryIdentifierKey) (v : String) :
    Option Nat :=
  matchLitNum (countryConvert rows (matchRequest (k, false) (some (.Numeric, true)))
    (.variant (countryPathName k) v))

/--
`TryFrom<u16>` for the country enumeration keyed by `k`
(country.rs lines 107-113): `match c: "Iso3166_1_numeric" => K` followed by
`.ok_or(Error::InvalidCountryCode(c.to_string()))`.
-/
def countryTryFromU16 (rows : List CountryEntry) (k : CountryIdentifierKey) (n : Nat) :
    Except CountryError (String × String) :=
  okOr (matchSomeVariant (countryConvert rows (matchRequest (.Numeric, true) (some (k, false)))
    (.num n))) (.InvalidCountryCode (toString n))

/--
`From<$from> for $to` between the two country enumerations
(country.rs lines 124-130): `match c: From => To`, a total match.
-/
def countryFrom (rows : List CountryEntry) (fk tk : CountryIdentifierKey) (v : String) :
    Option (String × String) :=
  matchVariant (countryConvert rows (matchRequest (fk, false) (some (tk, false)))
    (.variant (countryPathName fk) v))

/-- `Language::code` for the enumeration keyed by `k` (language.rs lines 101-103). -/
def languageCode (entries : List LanguageEntry) (k : LanguageTableEntryKey) (v : String) :
    Option String :=
  matchLitStr (languageConvert entries (matchRequest (k, false) (some (k, true)))
    (.variant (langPathName k) v))

/--
`FromStr` for the language enumeration keyed by `k` (language.rs
lines 112-118): `match s: "K" => K` followed by
`.ok_or(Error::InvalidLanguageCode(..))`.
-/
def languageFromStr (entries : List LanguageEntry) (k : LanguageTableEntryKey) (s : String) :
    Except LanguageError (String × String) :=
  okOr (matchSomeVariant (languageConvert entries (matchRequest (k, true) (some (k, false)))
    (.str s))) (.InvalidLanguageCode s)

-- ## Definitions following the wording of individual spec sentences
-- (used to compare the spec's predictions with the emitters)

/-- Per the spec, a country key can never be absent from a record. -/
def countryKeyCanBeAbsent : CountryIdentifierKey → Bool := fun _ => false

/-- Per the spec, every language key except `Iso639_3` and `Name` can be absent. -/
def languageKeyCanBeAbsent : LanguageTableEntryKey → Bool
  | .Iso639_3 => false
  | .Name => false
  | _ => true

/--
The claimed partiality rule for a country request: partial iff the right
side is a symbolic identifier reference and the underlying right key can be
absent for some record.
-/
def claimPartialityRuleCountry (inp : GenerationInput CountryIdentifierKey) : Bool :=
  match inp.rhs with
  | some (k, false) => countryKeyCanBeAbsent k
  | _ => false

/--
A match construct that is partial in the claim's sense: every arm yields an
optional outcome and the unconditional fallback arm is appended.
-/
def isPartialMatchOutput : Output → Bool
  | .matchConstruct frags fb =>
    fb && frags.all (fun f =>
      match f with
      | .arm _ (.someVariant _ _) => true
      | .arm _ .noneValue => true
      | _ => false)
  | _ => false

/-- The distinct non-empty values of a list, in first-occurrence order. -/
def distinctNonEmptyValues (vals : List String) : List String :=
  (vals.filter (fun v => v ≠ "")).dedup

/--
The title policy as the spec words it: uppercase the first character,
lowercase every remaining character, with the case maps acting on the ASCII
subset only and passing non-ASCII characters through unchanged.
-/
def titlePolicyClaim (s : String) : String :=
  match s.data with
  | [] => s
  | c :: rest => String.mk (make_ascii_uppercase c :: rest.map make_ascii_lowercase)

/--
Closed form of the record built from one language table line with at least
seven tab-separated columns (the amended presence rule, with lengths in
UTF-8 bytes).
-/
def lineRecord (l : String) : LanguageEntry :=
  let cols := rustSplit '\t' l
  ⟨some (cols.getD 0 ""),
    if (cols.getD 1 "").utf8ByteSize = 3 then some (cols.getD 1 "") else none,
    if (cols.getD 2 "").utf8ByteSize = 3 then some (cols.getD 2 "") else none,
    if (cols.getD 3 "").utf8ByteSize = 2 then some (cols.getD 3 "") else none,
    some (cols.getD 6 "")⟩

-- ## Shape predicates on emitted fragments and results

/-- An arm whose outcome is optional (`.. => Some(..)` or `.. => None`). -/
def isOptionArm : RowFrag → Bool
  | .arm _ (.someVariant _ _) => true
  | .arm _ .noneValue => true
  | _ => false

/-- An arm mapping a variant pattern to a plain variant (`L::x => R::y`). -/
def isPlainVariantArm : RowFrag → Bool
  | .arm _ (.variant _ _) => true
  | _ => false

/-- An arm whose outcome is a plain literal (`.. => "s"` or `.. => 840`). -/
def isPlainLitArm : RowFrag → Bool
  | .arm _ (.litStr _) => true
  | .arm _ (.litNum _) => true
  | _ => false

/-- Did generation abort with a panic? -/
def isPanicResult : Except GenError Output → Bool
  | .error (.panicked _) => true
  | _ => false

/-- Did generation produce an output? -/
def isOkResult : Except GenError Output → Bool
  | .ok _ => true
  | _ => false

/-- `litStr`/`litNum` expressions. -/
def isLitExp : Exp → Bool
  | .litStr _ => true
  | .litNum _ => true
  | _ => false

/-- Is an `Except` an `ok`? -/
def exceptOk {ε α : Type} : Except ε α → Bool
  | .ok _ => true
  | .error _ => false

-- ## Concrete data used by counterexamples and witnesses

/-- The United States record of the country dataset (as in the repository's doctest). -/
def usRow : CountryEntry := ⟨"United States of America", "US", "USA", "840"⟩

/-- The Canada record of the country dataset. -/
def caRow : CountryEntry := ⟨"Canada", "CA", "CAN", "124"⟩

/-- A language row with an empty `Iso639_3` value (all optional columns absent). -/
def langRowEmptyId : LanguageEntry := ⟨some "", none, none, none, some "N0"⟩

/-- A language row whose `Iso639_3` value is `"ENG"`. -/
def langRowUpperEng : LanguageEntry := ⟨some "ENG", none, none, none, some "N1"⟩

/-- A language row whose `Iso639_3` value is `"eng"`. -/
def langRowLowerEng : LanguageEntry := ⟨some "eng", none, none, none, some "N2"⟩

/-- The string `"ENG"` (used to instantiate the normalization statement). -/
def engStr : String := String.mk ['E', 'N', 'G']

/-- A header line. -/
def hdrLine : String := "h"

/-- A well-formed English line of the language table. -/
def engLine : String := "eng\teng\teng\ten\tI\tL\tEnglish"

/-- The English row of the language table (as in the repository's doctest). -/
def engRow : LanguageEntry := ⟨some "eng", some "eng", some "eng", some "en", some "English"⟩

/-- The French row of the language table (ISO 639-2 B and T codes differ). -/
def fraRow : LanguageEntry := ⟨some "fra", some "fre", some "fra", some "fr", some "French"⟩

/-- A language row with no ISO 639-1 and no ISO 639-2 codes. -/
def aaaRow : LanguageEntry := ⟨some "aaa", none, none, none, some "Ghotuo"⟩

-- #############################################################################
-- ## Theorems
-- #############################################################################

-- ### C2: the country dataset's JSON field keys

/--
C2 counterexample: the claim says the loader's field keys are exactly
`name`, `alpha_2`, `alpha_3`, `country_code` and that an object carrying
those four keys parses successfully. In the code,
`#[serde(rename_all = "kebab-case")]` renames the members to `alpha-2`,
`alpha-3`, `country-code`, so an object with the underscore spellings fails
to deserialize with a missing-field error.
-/
theorem c2_counterexample :
    parse_country_codes (Json.arr [Json.obj
      [("name", Json.str "United States of America"),
       ("alpha_2", Json.str "US"),
       ("alpha_3", Json.str "USA"),
       ("country_code", Json.str "840")]])
    = .error (.diagnostic "Unable to parse the country code dataset" "missing field `alpha-2`") :=
  rfl

/--
C2 (amended): the country dataset loader parses its input as a JSON array of
objects whose field keys are the kebab-case spellings `name`, `alpha-2`,
`alpha-3`, `country-code` (with `country-code` holding the numeric code as a
decimal string); an object carrying those four keys parses into a country
record with those four field values.
-/
theorem c2_theorem (n a2 a3 cc : String) :
    parse_country_codes (Json.arr [Json.obj
      [("name", Json.str n),
       ("alpha-2", Json.str a2),
       ("alpha-3", Json.str a3),
       ("country-code", Json.str cc)]])
    = .ok [⟨n, a2, a3, cc⟩] := rfl

-- ### C4: a structurally short language table line

/--
C4: a line with fewer than 7 tab-separated fields after the header makes the
loader panic with an out-of-bounds index (here `line[1]` on a 1-field line)
instead of aborting with a diagnostic naming the dataset path and cause, as
it does for an unreadable file.
-/
theorem c4_theorem :
    parse_language_table
      ["Id\tPart2b\tPart2t\tPart1\tScope\tLanguage_Type\tRef_Name", "abc"]
    = .error (.panicked "index out of bounds: the len is 1 but the index is 1") := rfl

-- ### C8: the title normalization policy

/--
C8 counterexample: on `"ÉA"` the claimed policy (uppercase the first
character, lowercase the remainder, non-ASCII passed through unchanged)
produces `"Éa"`, but `ascii_formatter` leaves the whole string unchanged,
because the first character is two bytes wide and both sub-slice accesses
fail at a non-character-boundary.
-/
theorem c8_counterexample :
    ascii_formatter "ÉA" = "ÉA" ∧ titlePolicyClaim "ÉA" = "Éa"
      ∧ ascii_formatter "ÉA" ≠ titlePolicyClaim "ÉA" := by
  refine ⟨by decide, by decide, by decide⟩

/--
C8 (amended): when the string is non-empty and its first character is a
single-byte (ASCII) character, `ascii_formatter` uppercases it and
ASCII-lowercases every remaining character (non-ASCII characters pass
through unchanged, so `"ENG"` becomes `"Eng"`); when the string is empty or
begins with a multi-byte character it is returned completely unchanged.
-/
theorem c8_theorem (s : String) (c : Char) (rest : List Char) (h : s.data = c :: rest) :
    (c.utf8Size = 1 →
      ascii_formatter s = String.mk (make_ascii_uppercase c :: rest.map make_ascii_lowercase))
    ∧ (c.utf8Size ≠ 1 → ascii_formatter s = s) := by
  constructor <;> intro hc <;> simp [ascii_formatter, h, hc]

/-- C8 witness: the amended statement at `"ENG"`. -/
theorem c8_witness :
    ascii_formatter engStr
      = String.mk (make_ascii_uppercase 'E' :: ['N', 'G'].map make_ascii_lowercase)
    ∧ String.mk (make_ascii_uppercase 'E' :: ['N', 'G'].map make_ascii_lowercase) = "Eng" :=
  ⟨(c8_theorem engStr 'E' ['N', 'G'] rfl).1 rfl, by decide⟩

-- ### C9: ascii_formatter is the identity off the ASCII-first case

/--
C9: `ascii_formatter` is total, and on the empty string and on every string
whose first character is multi-byte (non-ASCII) it returns the input
completely unchanged — including any ASCII characters after the first —
because both sub-slice accesses fail at a non-character-boundary.
-/
theorem c9_theorem (s : String)
    (h : s.data = [] ∨ ∃ c rest, s.data = c :: rest ∧ c.utf8Size ≠ 1) :
    ascii_formatter s = s := by
  rcases h with h | ⟨c, rest, h, hc⟩
  · simp [ascii_formatter, h]
  · simp [ascii_formatter, h, hc]

/-- C9 witness: `"ÉA"` (multi-byte first character, ASCII second) is unchanged. -/
theorem c9_witness : ascii_formatter "ÉA" = "ÉA" :=
  c9_theorem "ÉA" (Or.inr ⟨'É', ['A'], rfl, by decide⟩)

-- ### Shape lemmas about the fragments each emitter can produce

theorem except_bind_ok {ε α β : Type} (a : α) (f : α → Except ε β) :
    (Except.ok a >>= f) = f a := rfl

theorem except_bind_error {ε α β : Type} (e : ε) (f : α → Except ε β) :
    ((Except.error e : Except ε α) >>= f) = Except.error e := rfl

theorem except_map_ok {ε α β : Type} (f : α → β) (a : α) :
    (f <$> (Except.ok a : Except ε α)) = Except.ok (f a) := rfl

theorem except_map_error {ε α β : Type} (f : α → β) (e : ε) :
    (f <$> (Except.error e : Except ε α)) = Except.error e := rfl

theorem except_pure {ε α : Type} (a : α) : (pure a : Except ε α) = Except.ok a := rfl

theorem bind_ok_inv {ε α β : Type} (x : Except ε α) (f : α → Except ε β) (b : β)
    (h : (x >>= f) = .ok b) : ∃ a, x = .ok a ∧ f a = .ok b := by
  cases x with
  | ok a => exact ⟨a, rfl, h⟩
  | error e => rw [except_bind_error] at h; cases h

theorem map_ok_inv {ε α β : Type} (g : α → β) (x : Except ε α) (b : β)
    (h : (g <$> x) = .ok b) : ∃ a, x = .ok a ∧ g a = b := by
  cases x with
  | ok a => rw [except_map_ok] at h; injection h with h2; exact ⟨a, rfl, h2⟩
  | error e => rw [except_map_error] at h; cases h

theorem pure_ok_inv {ε α : Type} (a b : α) (h : (pure a : Except ε α) = .ok b) : a = b := by
  rw [except_pure] at h
  injection h

/-- A legal-start character is not a digit. -/
theorem start_not_digit (c : Char) (h : identCharStart c = true) : isAsciiDigit c = false := by
  cases hb : isAsciiDigit c with
  | false => rfl
  | true =>
    exfalso
    simp only [identCharStart, Bool.or_eq_true, Bool.and_eq_true, decide_eq_true_eq] at h
    simp only [isAsciiDigit, Bool.and_eq_true, decide_eq_true_eq] at hb
    omega

/-- `Ident::new` succeeds exactly on legal identifiers. -/
theorem identNew_ok (s : String) (h : identOk s = true) : identNew s = .ok s := by
  cases hd : s.data with
  | nil => simp [identOk, hd] at h
  | cons c rest =>
    simp only [identOk, hd, Bool.and_eq_true] at h
    simp [identNew, hd, start_not_digit c h.1, h.1, h.2]

/-- Every failure of `Ident::new` is a panic. -/
theorem identNew_error_panicked (s : String) (g : GenError) (h : identNew s = .error g) :
    ∃ m, g = .panicked m := by
  unfold identNew at h
  split at h
  · injection h with h2
    exact ⟨_, h2.symm⟩
  · split at h
    · injection h with h2
      exact ⟨_, h2.symm⟩
    · split at h
      · cases h
      · injection h with h2
        exact ⟨_, h2.symm⟩

theorem isPlainLitArm_arm (p : Pat) (r : Exp) : isPlainLitArm (.arm p r) = isLitExp r := by
  cases r <;> rfl

theorem countryLiteralExp_isLit (k : CountryIdentifierKey) (e : CountryEntry) (r : Exp)
    (h : countryLiteralExp k e = .ok r) : isLitExp r = true := by
  cases k with
  | Numeric =>
    cases hp : parseU16 e.country_code with
    | none => simp [countryLiteralExp, hp] at h
    | some n => simp [countryLiteralExp, hp] at h; subst h; rfl
  | Alpha2 => simp [countryLiteralExp] at h; subst h; rfl
  | Alpha3 => simp [countryLiteralExp] at h; subst h; rfl
  | Name => simp [countryLiteralExp] at h; subst h; rfl

/--
Shape of a single country row fragment: a literal right side always yields a
plain-literal arm; an identifier right side yields an optional arm when the
left side is a literal and a plain variant-to-variant arm when the left side
is an identifier.
-/
theorem countryRow_shape (lhs : CountryIdentifierKey × Bool)
    (rhs : Option (CountryIdentifierKey × Bool)) (e : CountryEntry) (f : RowFrag)
    (h : countryRow lhs rhs e = .ok f) :
    (∀ k, rhs = some (k, true) → isPlainLitArm f = true)
    ∧ (∀ k, lhs.snd = true → rhs = some (k, false) → isOptionArm f = true)
    ∧ (∀ k, lhs.snd = false → rhs = some (k, false) → isPlainVariantArm f = true) := by
  rcases lhs with ⟨lk, lb⟩
  rcases rhs with _ | ⟨rk, rb⟩
  · refine ⟨fun k hk => ?_, fun k hl hk => ?_, fun k hl hk => ?_⟩ <;> simp at hk
  · cases lb <;> cases rb
    · -- identifier => identifier
      refine ⟨fun k hk => ?_, fun k hl hk => ?_, fun k hl hk => ?_⟩
      · simp at hk
      · simp at hl
      · simp only [countryRow] at h
        obtain ⟨ls, h1, h⟩ := bind_ok_inv _ _ _ h
        obtain ⟨lv, h2, h⟩ := bind_ok_inv _ _ _ h
        obtain ⟨lp, h3, h⟩ := bind_ok_inv _ _ _ h
        obtain ⟨rs, h4, h⟩ := bind_ok_inv _ _ _ h
        obtain ⟨rv, h5, h⟩ := bind_ok_inv _ _ _ h
        obtain ⟨rp, h6, h7⟩ := map_ok_inv _ _ _ h
        rw [← h7]
        rfl
    · -- identifier => literal
      refine ⟨fun k hk => ?_, fun k hl hk => ?_, fun k hl hk => ?_⟩
      · simp only [countryRow] at h
        obtain ⟨ls, h1, h⟩ := bind_ok_inv _ _ _ h
        obtain ⟨lv, h2, h⟩ := bind_ok_inv _ _ _ h
        obtain ⟨lp, h3, h⟩ := bind_ok_inv _ _ _ h
        obtain ⟨r, h4, h5⟩ := map_ok_inv _ _ _ h
        rw [← h5]
        show isPlainLitArm (.arm (.variant lp lv) r) = true
        rw [isPlainLitArm_arm]
        exact countryLiteralExp_isLit rk e r h4
      · simp at hl
      · simp at hk
    · -- literal => identifier
      refine ⟨fun k hk => ?_, fun k hl hk => ?_, fun k hl hk => ?_⟩
      · simp at hk
      · simp only [countryRow] at h
        obtain ⟨l, h1, h⟩ := bind_ok_inv _ _ _ h
        obtain ⟨rs, h2, h⟩ := bind_ok_inv _ _ _ h
        obtain ⟨rv, h3, h⟩ := bind_ok_inv _ _ _ h
        obtain ⟨rp, h4, h5⟩ := map_ok_inv _ _ _ h
        rw [← h5]
        rfl
      · simp at hl
    · -- literal => literal
      refine ⟨fun k hk => ?_, fun k hl hk => ?_, fun k hl hk => ?_⟩
      · simp only [countryRow] at h
        obtain ⟨l, h1, h⟩ := bind_ok_inv _ _ _ h
        obtain ⟨r, h2, h3⟩ := map_ok_inv _ _ _ h
        rw [← h3]
        show isPlainLitArm (.arm l r) = true
        rw [isPlainLitArm_arm]
        exact countryLiteralExp_isLit rk e r h2
      · simp at hk
      · simp at hk

/-- Every fragment produced by the country row loop satisfies `countryRow`'s shape. -/
theorem countryRows_shape (lhs : CountryIdentifierKey × Bool)
    (rhs : Option (CountryIdentifierKey × Bool)) (rows : List CountryEntry)
    (frags : List RowFrag) (h : countryRows lhs rhs rows = .ok frags) :
    ∀ f ∈ frags,
      (∀ k, rhs = some (k, true) → isPlainLitArm f = true)
      ∧ (∀ k, lhs.snd = true → rhs = some (k, false) → isOptionArm f = true)
      ∧ (∀ k, lhs.snd = false → rhs = some (k, false) → isPlainVariantArm f = true) := by
  induction rows generalizing frags with
  | nil =>
    simp [countryRows] at h
    subst h
    intro f hf
    cases hf
  | cons e rest ih =>
    cases h1 : countryRow lhs rhs e with
    | error e1 => simp [countryRows, h1, except_bind_error] at h
    | ok f0 =>
      cases h2 : countryRows lhs rhs rest with
      | error e2 => simp [countryRows, h1, h2, except_bind_ok, except_bind_error] at h
      | ok fs =>
        simp [countryRows, h1, h2, except_bind_ok, except_pure] at h
        subst h
        intro f hf
        rcases List.mem_cons.mp hf with hf | hf
        · rw [hf]
          exact countryRow_shape lhs rhs e f0 h1
        · exact ih fs h2 f hf

/--
Shape of a single language row fragment: a literal right side always yields
a plain-literal arm; an identifier right side always yields an optional arm.
-/
theorem languageRow_shape (lhs : LanguageTableEntryKey × Bool)
    (rhs : Option (LanguageTableEntryKey × Bool)) (e : LanguageEntry) (f : RowFrag)
    (h : languageRow lhs rhs e = .ok f) :
    (∀ k, rhs = some (k, true) → isPlainLitArm f = true)
    ∧ (∀ k, rhs = some (k, false) → isOptionArm f = true) := by
  rcases lhs with ⟨lk, lb⟩
  rcases rhs with _ | ⟨rk, rb⟩
  · refine ⟨fun k hk => ?_, fun k hk => ?_⟩ <;> simp at hk
  · cases lb <;> cases rb
    · -- identifier => identifier
      refine ⟨fun k hk => ?_, fun k hk => ?_⟩
      · simp at hk
      · simp only [languageRow] at h
        obtain ⟨l, h1, h⟩ := bind_ok_inv _ _ _ h
        obtain ⟨lv, h2, h⟩ := bind_ok_inv _ _ _ h
        obtain ⟨lp, h3, h⟩ := bind_ok_inv _ _ _ h
        cases hget : e.get rk with
        | none =>
          rw [hget] at h
          have h9 := pure_ok_inv _ _ h
          rw [← h9]
          rfl
        | some rv0 =>
          rw [hget] at h
          obtain ⟨rv, h4, h⟩ := bind_ok_inv _ _ _ h
          obtain ⟨rp, h5, h6⟩ := map_ok_inv _ _ _ h
          rw [← h6]
          rfl
    · -- identifier => literal
      refine ⟨fun k hk => ?_, fun k hk => ?_⟩
      · simp only [languageRow] at h
        obtain ⟨l, h1, h⟩ := bind_ok_inv _ _ _ h
        obtain ⟨lv, h2, h⟩ := bind_ok_inv _ _ _ h
        obtain ⟨lp, h3, h⟩ := bind_ok_inv _ _ _ h
        obtain ⟨r, h4, h5⟩ := map_ok_inv _ _ _ h
        rw [← h5]
        rfl
      · simp at hk
    · -- literal => identifier
      refine ⟨fun k hk => ?_, fun k hk => ?_⟩
      · simp at hk
      · simp only [languageRow] at h
        obtain ⟨l, h1, h⟩ := bind_ok_inv _ _ _ h
        cases hget : e.get rk with
        | none =>
          rw [hget] at h
          have h9 := pure_ok_inv _ _ h
          rw [← h9]
          rfl
        | some rv0 =>
          rw [hget] at h
          obtain ⟨rv, h4, h⟩ := bind_ok_inv _ _ _ h
          obtain ⟨rp, h5, h6⟩ := map_ok_inv _ _ _ h
          rw [← h6]
          rfl
    · -- literal => literal
      refine ⟨fun k hk => ?_, fun k hk => ?_⟩
      · simp only [languageRow] at h
        obtain ⟨l, h1, h⟩ := bind_ok_inv _ _ _ h
        obtain ⟨r, h2, h3⟩ := map_ok_inv _ _ _ h
        rw [← h3]
        rfl
      · simp at hk

/-- Every fragment produced by the language row loop satisfies `languageRow`'s shape. -/
theorem languageRows_shape (lhs : LanguageTableEntryKey × Bool)
    (rhs : Option (LanguageTableEntryKey × Bool)) (entries : List LanguageEntry)
    (frags : List RowFrag) (h : languageRows lhs rhs entries = .ok frags) :
    ∀ f ∈ frags,
      (∀ k, rhs = some (k, true) → isPlainLitArm f = true)
      ∧ (∀ k, rhs = some (k, false) → isOptionArm f = true) := by
  induction entries generalizing frags with
  | nil =>
    simp [languageRows] at h
    subst h
    intro f hf
    cases hf
  | cons e rest ih =>
    by_cases hskip : (e.get lhs.fst).isNone
    · rw [languageRows, if_pos hskip] at h
      exact ih frags h
    · rw [languageRows, if_neg hskip] at h
      cases h1 : languageRow lhs rhs e with
      | error e1 => simp [h1, except_bind_error] at h
      | ok f0 =>
        cases h2 : languageRows lhs rhs rest with
        | error e2 => simp [h1, h2, except_bind_ok, except_bind_error] at h
        | ok fs =>
          simp [h1, h2, except_bind_ok, except_pure] at h
          subst h
          intro f hf
          rcases List.mem_cons.mp hf with hf | hf
          · rw [hf]
            exact languageRow_shape lhs rhs e f0 h1
          · exact ih fs h2 f hf

/-- Inversion of the final assembly when the result is a match construct. -/
theorem assembleOutput_matchConstruct {K : Type} (stdCode : Option String)
    (inp : GenerationInput K) (frags frags2 : List RowFrag) (fb : Bool)
    (h : assembleOutput stdCode inp frags = .matchConstruct frags2 fb) :
    frags2 = frags ∧ fb = inp.lhs.snd := by
  unfold assembleOutput at h
  cases he : inp.enumeration with
  | some nm =>
    rw [he] at h
    cases stdCode <;> simp at h
  | none =>
    rw [he] at h
    by_cases hm : inp.match_against
    · rw [if_pos hm] at h
      injection h with h1 h2
      exact ⟨h1.symm, h2.symm⟩
    · rw [if_neg hm] at h
      cases h

-- ### C1: when is an emitted match construct partial?

/--
C1 counterexample: the `FromStr` generation for `Iso3166_1_alpha_2`
(left side the literal `"Iso3166_1_alpha_2"`, right side the identifier
`Iso3166_1_alpha_2`) over a one-row country dataset emits a partial match —
every arm yields `Some(..)` and the `_ => None` fallback arm is appended —
although the claim's rule predicts a total match with no fallback, since no
country key can ever be absent.
-/
theorem c1_counterexample :
    country_identifiers_from_table [usRow]
      (matchRequest (CountryIdentifierKey.Alpha2, true) (some (CountryIdentifierKey.Alpha2, false)))
      = .ok (.matchConstruct [.arm (.str "US") (.someVariant "Iso3166_1_alpha_2" "Us")] true)
    ∧ isPartialMatchOutput
        (.matchConstruct [.arm (.str "US") (.someVariant "Iso3166_1_alpha_2" "Us")] true) = true
    ∧ claimPartialityRuleCountry
        (matchRequest (CountryIdentifierKey.Alpha2, true)
          (some (CountryIdentifierKey.Alpha2, false))) = false :=
  ⟨rfl, rfl, rfl⟩

/--
C1 (amended): in both emitters the unconditional `_ => None` fallback arm is
appended to a generated match construct iff the left side of the request is a
literal, regardless of the right side; arms yield an optional outcome iff the
right side is a symbolic identifier reference — except that the country
emitter makes identifier-to-identifier matches total, with plain
variant-to-variant arms and no optional outcome (country keys are never
absent) — and arms yield plain literal outcomes whenever the right side is a
literal.
-/
theorem c1_theorem :
    (∀ (rows : List CountryEntry) (inp : GenerationInput CountryIdentifierKey)
        (frags : List RowFrag) (fb : Bool),
      country_identifiers_from_table rows inp = .ok (.matchConstruct frags fb) →
        fb = inp.lhs.snd
        ∧ (∀ k, inp.lhs.snd = true → inp.rhs = some (k, false) → frags.all isOptionArm = true)
        ∧ (∀ k, inp.lhs.snd = false → inp.rhs = some (k, false) →
            frags.all isPlainVariantArm = true)
        ∧ (∀ k, inp.rhs = some (k, true) → frags.all isPlainLitArm = true))
    ∧ (∀ (entries : List LanguageEntry) (inp : GenerationInput LanguageTableEntryKey)
        (frags : List RowFrag) (fb : Bool),
      language_identifiers_from_table entries inp = .ok (.matchConstruct frags fb) →
        fb = inp.lhs.snd
        ∧ (∀ k, inp.rhs = some (k, false) → frags.all isOptionArm = true)
        ∧ (∀ k, inp.rhs = some (k, true) → frags.all isPlainLitArm = true)) := by
  constructor
  · intro rows inp frags fb h
    cases h0 : countryRows inp.lhs inp.rhs rows with
    | error e0 => simp [country_identifiers_from_table, h0] at h
    | ok frags0 =>
      simp [country_identifiers_from_table, h0] at h
      obtain ⟨hfr, hfb⟩ := assembleOutput_matchConstruct _ inp frags0 frags fb h
      subst hfr
      have hshape := countryRows_shape inp.lhs inp.rhs rows frags h0
      refine ⟨hfb, ?_, ?_, ?_⟩
      · intro k hl hk
        exact List.all_eq_true.mpr (fun f hf => ((hshape f hf).2.1) k hl hk)
      · intro k hl hk
        exact List.all_eq_true.mpr (fun f hf => ((hshape f hf).2.2) k hl hk)
      · intro k hk
        exact List.all_eq_true.mpr (fun f hf => ((hshape f hf).1) k hk)
  · intro entries inp frags fb h
    cases h0 : languageRows inp.lhs inp.rhs entries with
    | error e0 => simp [language_identifiers_from_table, h0] at h
    | ok frags0 =>
      simp [language_identifiers_from_table, h0] at h
      obtain ⟨hfr, hfb⟩ := assembleOutput_matchConstruct _ inp frags0 frags fb h
      subst hfr
      have hshape := languageRows_shape inp.lhs inp.rhs entries frags h0
      refine ⟨hfb, ?_, ?_⟩
      · intro k hk
        exact List.all_eq_true.mpr (fun f hf => ((hshape f hf).2) k hk)
      · intro k hk
        exact List.all_eq_true.mpr (fun f hf => ((hshape f hf).1) k hk)

/--
C1 witness: the amended statement at the `FromStr` generation for
`Iso3166_1_alpha_2` over the one-row dataset `[usRow]`.
-/
theorem c1_witness :
    true = (matchRequest (CountryIdentifierKey.Alpha2, true)
      (some (CountryIdentifierKey.Alpha2, false))).lhs.snd
    ∧ ([RowFrag.arm (.str "US") (.someVariant "Iso3166_1_alpha_2" "Us")]).all isOptionArm
        = true := by
  have h := c1_theorem.1 [usRow]
    (matchRequest (CountryIdentifierKey.Alpha2, true) (some (CountryIdentifierKey.Alpha2, false)))
    [RowFrag.arm (.str "US") (.someVariant "Iso3166_1_alpha_2" "Us")] true rfl
  exact ⟨h.1, h.2.1 CountryIdentifierKey.Alpha2 rfl rfl⟩

-- ### C3: which records contribute enumeration variants

/--
The language enumeration row loop produces one fragment per row holding the
key, provided the normalized values are legal identifiers (else the loop
panics at `Ident::new`).
-/
theorem languageRows_enumFrags (k : LanguageTableEntryKey) :
    ∀ (entries : List LanguageEntry),
    (∀ v ∈ entries.filterMap (fun e => e.get k), identOk (ascii_formatter v) = true) →
    languageRows (k, false) none entries
      = .ok ((entries.filterMap (fun e => e.get k)).map
          (fun v => RowFrag.exp (.bare (ascii_formatter v)))) := by
  intro entries
  induction entries with
  | nil => intro _; rfl
  | cons e rest ih =>
    intro hv
    cases hget : e.get k with
    | none =>
      rw [languageRows]
      have hv2 : ∀ v ∈ rest.filterMap (fun e => e.get k),
          identOk (ascii_formatter v) = true :=
        fun v hx => hv v (by
          simp only [List.filterMap_cons, hget]
          exact hx)
      simp [hget, ih hv2]
    | some v =>
      have hvh : identOk (ascii_formatter v) = true :=
        hv v (by
          simp only [List.filterMap_cons, hget]
          exact List.mem_cons_self _ _)
      have hv2 : ∀ x ∈ rest.filterMap (fun e => e.get k),
          identOk (ascii_formatter x) = true :=
        fun x hx => hv x (by
          simp only [List.filterMap_cons, hget]
          exact List.mem_cons_of_mem _ hx)
      rw [languageRows]
      simp [hget, languageRow, LanguageEntry.index, identNew_ok _ hvh, ih hv2,
        except_bind_ok, except_pure]

/--
The country enumeration row loop produces one fragment per row,
unconditionally, provided the normalized values are legal identifiers.
-/
theorem countryRows_enumFrags (k : CountryIdentifierKey)
    (hk : k = .Alpha2 ∨ k = .Alpha3) :
    ∀ (rows : List CountryEntry),
    (∀ e ∈ rows, identOk (ascii_formatter (countryVal k e)) = true) →
    countryRows (k, false) none rows
      = .ok (rows.map (fun e => RowFrag.exp (.bare (ascii_formatter (countryVal k e))))) := by
  rcases hk with rfl | rfl <;>
    (intro rows
     induction rows with
     | nil => intro _; rfl
     | cons e rest ih =>
       intro hv
       have hI := identNew_ok _ (hv e (List.mem_cons_self e rest))
       simp only [countryVal] at hI
       simp [countryRows, countryRow, countryIdentName, countryVal, hI,
         ih (fun x hx => hv x (List.mem_cons_of_mem e hx)),
         except_bind_ok, except_pure])

/--
C3 counterexample. First: over a language table whose first record's
`Iso639_3` value is the empty string (present, not absent), generation does
not silently skip the record — it aborts with the `Ident::new` empty-ident
panic, so the "empty contributes no variant" reading is false. Second: over
the two records with values `"ENG"` and `"eng"` (two distinct non-empty
values), the emitted enumeration has the two coinciding variants
`Eng`, `Eng` — one distinct variant name — so the variant set is not in
one-to-one correspondence with the distinct non-empty values.
-/
theorem c3_counterexample :
    language_identifiers_from_table [langRowEmptyId, langRowUpperEng, langRowLowerEng]
      (enumRequest "Iso639_3" LanguageTableEntryKey.Iso639_3)
      = .error (.panicked "Ident is not allowed to be empty; use Option<Ident>")
    ∧ language_identifiers_from_table [langRowUpperEng, langRowLowerEng]
      (enumRequest "Iso639_3" LanguageTableEntryKey.Iso639_3)
      = .ok (.enumDecl "Iso639_3" [.exp (.bare "Eng"), .exp (.bare "Eng")])
    ∧ distinctNonEmptyValues
        ([langRowUpperEng, langRowLowerEng].filterMap
          (fun e => e.get LanguageTableEntryKey.Iso639_3)) = ["ENG", "eng"]
    ∧ ([RowFrag.exp (.bare "Eng"), .exp (.bare "Eng")].dedup.length
        = (["ENG", "eng"] : List String).length → False) := by
  refine ⟨rfl, rfl, by decide, by decide⟩

/--
C3 (amended): a record contributes no variant iff its row lacks the
discriminant key entirely (possible only for language requests, through the
presence rules for `Iso639_2b`/`Iso639_2t`/`Iso639_1`; country records are
never skipped); when every normalized value is a legal identifier, each row
holding the key contributes exactly one variant — the normalization of its
raw value — in dataset row order and with no deduplication; a row whose
normalized value is not a legal identifier (for instance the empty string)
aborts generation with a panic instead of being skipped.
-/
theorem c3_theorem :
    (∀ (entries : List LanguageEntry) (enumName : String) (mb : Bool)
        (k : LanguageTableEntryKey), k ≠ .Name →
      (∀ v ∈ entries.filterMap (fun e => e.get k), identOk (ascii_formatter v) = true) →
      language_identifiers_from_table entries ⟨some enumName, mb, (k, false), none⟩
        = .ok (.enumDecl enumName ((entries.filterMap (fun e => e.get k)).map
            (fun v => RowFrag.exp (.bare (ascii_formatter v))))))
    ∧ (∀ (rows : List CountryEntry) (enumName : String) (mb : Bool)
        (k : CountryIdentifierKey), (k = .Alpha2 ∨ k = .Alpha3) →
      (∀ e ∈ rows, identOk (ascii_formatter (countryVal k e)) = true) →
      country_identifiers_from_table rows ⟨some enumName, mb, (k, false), none⟩
        = .ok (.enumDecl enumName (rows.map
            (fun e => RowFrag.exp (.bare (ascii_formatter (countryVal k e))))))) := by
  constructor
  · intro entries enumName mb k hk hv
    cases k with
    | Name => exact absurd rfl hk
    | Iso639_3 =>
      simp [language_identifiers_from_table, languageRows_enumFrags _ entries hv,
        assembleOutput, LanguageTableEntryKey.as_standard_code]
    | Iso639_2b =>
      simp [language_identifiers_from_table, languageRows_enumFrags _ entries hv,
        assembleOutput, LanguageTableEntryKey.as_standard_code]
    | Iso639_2t =>
      simp [language_identifiers_from_table, languageRows_enumFrags _ entries hv,
        assembleOutput, LanguageTableEntryKey.as_standard_code]
    | Iso639_1 =>
      simp [language_identifiers_from_table, languageRows_enumFrags _ entries hv,
        assembleOutput, LanguageTableEntryKey.as_standard_code]
  · intro rows enumName mb k hk hv
    rcases hk with rfl | rfl
    · simp [country_identifiers_from_table, countryRows_enumFrags _ (Or.inl rfl) rows hv,
        assembleOutput, CountryIdentifierKey.as_standard_code]
    · simp [country_identifiers_from_table, countryRows_enumFrags _ (Or.inr rfl) rows hv,
        assembleOutput, CountryIdentifierKey.as_standard_code]

/--
C3 witness: the amended statement for `Iso639_2b` over `[engRow, aaaRow]`
(the second row has no 2B code and is skipped) and for the country alpha-2
enumeration over `[usRow, caRow]`.
-/
theorem c3_witness :
    language_identifiers_from_table [engRow, aaaRow]
      ⟨some "Iso639_2b", false, (LanguageTableEntryKey.Iso639_2b, false), none⟩
      = .ok (.enumDecl "Iso639_2b" [.exp (.bare "Eng")])
    ∧ country_identifiers_from_table [usRow, caRow]
      ⟨some "Iso3166_1_alpha_2", false, (CountryIdentifierKey.Alpha2, false), none⟩
      = .ok (.enumDecl "Iso3166_1_alpha_2" [.exp (.bare "Us"), .exp (.bare "Ca")]) :=
  ⟨c3_theorem.1 [engRow, aaaRow] "Iso639_2b" false .Iso639_2b (by decide) (by decide),
   c3_theorem.2 [usRow, caRow] "Iso3166_1_alpha_2" false .Alpha2 (Or.inl rfl) (by decide)⟩

-- ### First-match lemmas for generated match constructs

theorem patMatches_scrutOfPat (p q : Pat) : patMatches p (scrutOfPat q) = true ↔ p = q := by
  cases p <;> cases q <;> simp [patMatches, scrutOfPat]

theorem find_arm_map {α : Type} (pf : α → Pat) (ef : α → Exp) (l : List α) (x : α)
    (hx : x ∈ l) (hn : (l.map pf).Nodup) :
    (l.map (fun y => RowFrag.arm (pf y) (ef y))).find? (fragMatches (scrutOfPat (pf x)))
      = some (.arm (pf x) (ef x)) := by
  induction l with
  | nil => cases hx
  | cons a t ih =>
    rw [List.map_cons, List.nodup_cons] at hn
    rcases List.mem_cons.mp hx with rfl | hx2
    · rw [List.map_cons]
      apply List.find?_cons_of_pos
      simp [fragMatches, patMatches_scrutOfPat]
    · have hne : pf a ≠ pf x := by
        intro he
        exact hn.1 (he ▸ List.mem_map_of_mem pf hx2)
      rw [List.map_cons, List.find?_cons_of_neg]
      · exact ih hx2 hn.2
      · simp [fragMatches, patMatches_scrutOfPat]
        exact hne

theorem evalMatch_found {α : Type} (pf : α → Pat) (ef : α → Exp) (l : List α) (x : α)
    (s : Scrut) (hx : x ∈ l) (hn : (l.map pf).Nodup) (hs : s = scrutOfPat (pf x)) (fb : Bool) :
    evalMatchOutput (.matchConstruct (l.map (fun y => RowFrag.arm (pf y) (ef y))) fb) s
      = some (ef x) := by
  subst hs
  simp [evalMatchOutput, find_arm_map pf ef l x hx hn]

theorem evalMatch_notfound {α : Type} (pf : α → Pat) (ef : α → Exp) (l : List α)
    (s : Scrut) (h : ∀ y ∈ l, patMatches (pf y) s = false) (fb : Bool) :
    evalMatchOutput (.matchConstruct (l.map (fun y => RowFrag.arm (pf y) (ef y))) fb) s
      = if fb then some .noneValue else none := by
  have hfind : (l.map (fun y => RowFrag.arm (pf y) (ef y))).find? (fragMatches s) = none := by
    refine List.find?_eq_none.mpr ?_
    intro f hf
    obtain ⟨y, hy, rfl⟩ := List.mem_map.mp hf
    simp [fragMatches, h y hy]
  simp [evalMatchOutput, hfind]

theorem nodup_map_comp {α β : Type} (g : β → Pat) (hg : Function.Injective g)
    (f : α → β) (l : List α) (h : (l.map f).Nodup) :
    (l.map (fun e => g (f e))).Nodup := by
  have h2 := h.map hg
  rw [List.map_map] at h2
  exact h2

theorem pat_variant_inj (p : String) : Function.Injective (fun v => Pat.variant p v) :=
  fun a b h => by simpa using h

theorem pat_str_inj : Function.Injective Pat.str :=
  fun a b h => by simpa using h

theorem pat_num_inj : Function.Injective Pat.num :=
  fun a b h => by simpa using h

-- ### Closed forms of the row loops for the request shapes the library uses

/-- Assembly of a match request over a successful country row loop. -/
theorem country_table_match (rows : List CountryEntry) (lhs : CountryIdentifierKey × Bool)
    (rhs : Option (CountryIdentifierKey × Bool)) (frags : List RowFrag)
    (h : countryRows lhs rhs rows = .ok frags) :
    country_identifiers_from_table rows (matchRequest lhs rhs)
      = .ok (.matchConstruct frags lhs.snd) := by
  simp [country_identifiers_from_table, matchRequest, h, assembleOutput]

/-- Assembly of a match request over a successful language row loop. -/
theorem language_table_match (entries : List LanguageEntry)
    (lhs : LanguageTableEntryKey × Bool) (rhs : Option (LanguageTableEntryKey × Bool))
    (frags : List RowFrag) (h : languageRows lhs rhs entries = .ok frags) :
    language_identifiers_from_table entries (matchRequest lhs rhs)
      = .ok (.matchConstruct frags lhs.snd) := by
  simp [language_identifiers_from_table, matchRequest, h, assembleOutput]

/-- Country identifier-to-identifier rows (`From` conversions). -/
theorem countryRows_identIdent (k1 k2 : CountryIdentifierKey)
    (h1 : k1 = .Alpha2 ∨ k1 = .Alpha3) (h2 : k2 = .Alpha2 ∨ k2 = .Alpha3) :
    ∀ (rows : List CountryEntry),
    (∀ e ∈ rows, identOk (ascii_formatter (countryVal k1 e)) = true) →
    (∀ e ∈ rows, identOk (ascii_formatter (countryVal k2 e)) = true) →
    countryRows (k1, false) (some (k2, false)) rows
      = .ok (rows.map (fun e => RowFrag.arm
          (.variant (countryPathName k1) (ascii_formatter (countryVal k1 e)))
          (.variant (countryPathName k2) (ascii_formatter (countryVal k2 e))))) := by
  rcases h1 with rfl | rfl <;> rcases h2 with rfl | rfl <;>
    (intro rows
     induction rows with
     | nil => intro _ _; rfl
     | cons e rest ih =>
       intro hv1 hv2
       have hI1 := identNew_ok _ (hv1 e (List.mem_cons_self e rest))
       have hI2 := identNew_ok _ (hv2 e (List.mem_cons_self e rest))
       simp only [countryVal] at hI1 hI2
       simp [countryRows, countryRow, countryIdentName, unwrapStr,
         CountryIdentifierKey.try_into_str, countryPathName, countryVal, hI1, hI2,
         ih (fun x hx => hv1 x (List.mem_cons_of_mem e hx))
            (fun x hx => hv2 x (List.mem_cons_of_mem e hx)),
         except_bind_ok, except_pure])

/-- Country identifier-to-string-literal rows (`code`/`name` accessors). -/
theorem countryRows_identLit (k1 k2 : CountryIdentifierKey)
    (h1 : k1 = .Alpha2 ∨ k1 = .Alpha3) (h2 : k2 ≠ .Numeric) :
    ∀ (rows : List CountryEntry),
    (∀ e ∈ rows, identOk (ascii_formatter (countryVal k1 e)) = true) →
    countryRows (k1, false) (some (k2, true)) rows
      = .ok (rows.map (fun e => RowFrag.arm
          (.variant (countryPathName k1) (ascii_formatter (countryVal k1 e)))
          (.litStr (countryVal k2 e)))) := by
  rcases h1 with rfl | rfl <;> cases k2 <;>
    first
    | exact absurd rfl h2
    | (intro rows
       induction rows with
       | nil => intro _; rfl
       | cons e rest ih =>
         intro hv1
         have hI1 := identNew_ok _ (hv1 e (List.mem_cons_self e rest))
         simp only [countryVal] at hI1
         simp [countryRows, countryRow, countryIdentName, countryLiteralExp, unwrapStr,
           CountryIdentifierKey.try_into_str, countryPathName, countryVal, hI1,
           ih (fun x hx => hv1 x (List.mem_cons_of_mem e hx)),
           except_bind_ok, except_pure])

/-- Country identifier-to-numeric-literal rows (the `numeric` accessor). -/
theorem countryRows_identNumLit (k1 : CountryIdentifierKey)
    (h1 : k1 = .Alpha2 ∨ k1 = .Alpha3) :
    ∀ (rows : List CountryEntry),
    (∀ e ∈ rows, identOk (ascii_formatter (countryVal k1 e)) = true) →
    (∀ e ∈ rows, (parseU16 e.country_code).isSome = true) →
    countryRows (k1, false) (some (.Numeric, true)) rows
      = .ok (rows.map (fun e => RowFrag.arm
          (.variant (countryPathName k1) (ascii_formatter (countryVal k1 e)))
          (.litNum ((parseU16 e.country_code).getD 0)))) := by
  rcases h1 with rfl | rfl <;>
    (intro rows
     induction rows with
     | nil => intro _ _; rfl
     | cons e rest ih =>
       intro hv1 hp
       obtain ⟨n, hn⟩ := Option.isSome_iff_exists.mp (hp e (List.mem_cons_self e rest))
       have hI1 := identNew_ok _ (hv1 e (List.mem_cons_self e rest))
       simp only [countryVal] at hI1
       simp [countryRows, countryRow, countryIdentName, countryLiteralExp, unwrapStr,
         CountryIdentifierKey.try_into_str, countryPathName, countryVal, hn, hI1,
         ih (fun x hx => hv1 x (List.mem_cons_of_mem e hx))
            (fun x hx => hp x (List.mem_cons_of_mem e hx)),
         except_bind_ok, except_pure])

/-- Country string-literal-to-identifier rows (`FromStr`). -/
theorem countryRows_litIdent (k1 k2 : CountryIdentifierKey)
    (h1 : k1 ≠ .Numeric) (h2 : k2 = .Alpha2 ∨ k2 = .Alpha3) :
    ∀ (rows : List CountryEntry),
    (∀ e ∈ rows, identOk (ascii_formatter (countryVal k2 e)) = true) →
    countryRows (k1, true) (some (k2, false)) rows
      = .ok (rows.map (fun e => RowFrag.arm
          (.str (countryVal k1 e))
          (.someVariant (countryPathName k2) (ascii_formatter (countryVal k2 e))))) := by
  rcases h2 with rfl | rfl <;> cases k1 <;>
    first
    | exact absurd rfl h1
    | (intro rows
       induction rows with
       | nil => intro _; rfl
       | cons e rest ih =>
         intro hv2
         have hI2 := identNew_ok _ (hv2 e (List.mem_cons_self e rest))
         simp only [countryVal] at hI2
         simp [countryRows, countryRow, countryIdentName, countryLiteralPat, unwrapStr,
           CountryIdentifierKey.try_into_str, countryPathName, countryVal, hI2,
           ih (fun x hx => hv2 x (List.mem_cons_of_mem e hx)),
           except_bind_ok, except_pure])

/-- Country numeric-literal-to-identifier rows (`TryFrom<u16>`). -/
theorem countryRows_numLitIdent (k2 : CountryIdentifierKey)
    (h2 : k2 = .Alpha2 ∨ k2 = .Alpha3) :
    ∀ (rows : List CountryEntry),
    (∀ e ∈ rows, identOk (ascii_formatter (countryVal k2 e)) = true) →
    (∀ e ∈ rows, (parseU16 e.country_code).isSome = true) →
    countryRows (.Numeric, true) (some (k2, false)) rows
      = .ok (rows.map (fun e => RowFrag.arm
          (.num ((parseU16 e.country_code).getD 0))
          (.someVariant (countryPathName k2) (ascii_formatter (countryVal k2 e))))) := by
  rcases h2 with rfl | rfl <;>
    (intro rows
     induction rows with
     | nil => intro _ _; rfl
     | cons e rest ih =>
       intro hv2 hp
       obtain ⟨n, hn⟩ := Option.isSome_iff_exists.mp (hp e (List.mem_cons_self e rest))
       have hI2 := identNew_ok _ (hv2 e (List.mem_cons_self e rest))
       simp only [countryVal] at hI2
       simp [countryRows, countryRow, countryIdentName, countryLiteralPat, unwrapStr,
         CountryIdentifierKey.try_into_str, countryPathName, countryVal, hn, hI2,
         ih (fun x hx => hv2 x (List.mem_cons_of_mem e hx))
            (fun x hx => hp x (List.mem_cons_of_mem e hx)),
         except_bind_ok, except_pure])

/-- `try_into().unwrap()` succeeds for every language key other than `Name`. -/
theorem lang_try_into_ok (k : LanguageTableEntryKey) (hk : k ≠ .Name) :
    unwrapStr k.try_into_str = .ok (langPathName k) := by
  cases k <;> first | exact absurd rfl hk | rfl

/-- Language identifier-to-literal rows over the same key (`code`). -/
theorem languageRows_identLitSame (k : LanguageTableEntryKey) (hk : k ≠ .Name) :
    ∀ (entries : List LanguageEntry),
    (∀ v ∈ entries.filterMap (fun e => e.get k), identOk (ascii_formatter v) = true) →
    languageRows (k, false) (some (k, true)) entries
      = .ok ((entries.filterMap (fun e => e.get k)).map
          (fun v => RowFrag.arm (.variant (langPathName k) (ascii_formatter v))
            (.litStr v))) := by
  intro entries
  induction entries with
  | nil => intro _; rfl
  | cons e rest ih =>
    intro hv
    cases hget : e.get k with
    | none =>
      rw [languageRows]
      have hv2 : ∀ v ∈ rest.filterMap (fun e => e.get k),
          identOk (ascii_formatter v) = true :=
        fun v hx => hv v (by
          simp only [List.filterMap_cons, hget]
          exact hx)
      simp [hget, ih hv2]
    | some v =>
      have hvh : identOk (ascii_formatter v) = true :=
        hv v (by
          simp only [List.filterMap_cons, hget]
          exact List.mem_cons_self _ _)
      have hv2 : ∀ x ∈ rest.filterMap (fun e => e.get k),
          identOk (ascii_formatter x) = true :=
        fun x hx => hv x (by
          simp only [List.filterMap_cons, hget]
          exact List.mem_cons_of_mem _ hx)
      rw [languageRows]
      simp [hget, languageRow, LanguageEntry.index, identNew_ok _ hvh,
        lang_try_into_ok k hk, ih hv2, except_bind_ok, except_pure]

/-- Language literal-to-identifier rows over the same key (`FromStr`). -/
theorem languageRows_litIdentSame (k : LanguageTableEntryKey) (hk : k ≠ .Name) :
    ∀ (entries : List LanguageEntry),
    (∀ v ∈ entries.filterMap (fun e => e.get k), identOk (ascii_formatter v) = true) →
    languageRows (k, true) (some (k, false)) entries
      = .ok ((entries.filterMap (fun e => e.get k)).map
          (fun v => RowFrag.arm (.str v)
            (.someVariant (langPathName k) (ascii_formatter v)))) := by
  intro entries
  induction entries with
  | nil => intro _; rfl
  | cons e rest ih =>
    intro hv
    cases hget : e.get k with
    | none =>
      rw [languageRows]
      have hv2 : ∀ v ∈ rest.filterMap (fun e => e.get k),
          identOk (ascii_formatter v) = true :=
        fun v hx => hv v (by
          simp only [List.filterMap_cons, hget]
          exact hx)
      simp [hget, ih hv2]
    | some v =>
      have hvh : identOk (ascii_formatter v) = true :=
        hv v (by
          simp only [List.filterMap_cons, hget]
          exact List.mem_cons_self _ _)
      have hv2 : ∀ x ∈ rest.filterMap (fun e => e.get k),
          identOk (ascii_formatter x) = true :=
        fun x hx => hv x (by
          simp only [List.filterMap_cons, hget]
          exact List.mem_cons_of_mem _ hx)
      rw [languageRows]
      simp [hget, languageRow, LanguageEntry.index, identNew_ok _ hvh,
        lang_try_into_ok k hk, ih hv2, except_bind_ok, except_pure]

-- ### C6: parse is a left inverse of code, and rejects non-codes

/--
C6: for every generated enumeration (country or language) over a dataset
whose raw codes are pairwise distinct and whose normalized variant names are
pairwise distinct, and every variant V (the normalization of the raw code of
a contributing record), `code` returns the raw code, parsing that code
returns `Ok(V)`, and parsing any string that is not the code of some variant
fails with the invalid-code error outcome.
-/
theorem c6_theorem :
    (∀ (rows : List CountryEntry) (k : CountryIdentifierKey) (r : CountryEntry),
      (k = .Alpha2 ∨ k = .Alpha3) → r ∈ rows →
      (rows.map (countryVal k)).Nodup →
      (rows.map (fun e => ascii_formatter (countryVal k e))).Nodup →
      (∀ e ∈ rows, identOk (ascii_formatter (countryVal k e)) = true) →
        countryCode rows k (ascii_formatter (countryVal k r)) = some (countryVal k r)
        ∧ countryFromStr rows k (countryVal k r)
            = .ok (countryPathName k, ascii_formatter (countryVal k r))
        ∧ (∀ s, s ∉ rows.map (countryVal k) →
            countryFromStr rows k s = .error (.InvalidCountryCode s)))
    ∧ (∀ (entries : List LanguageEntry) (k : LanguageTableEntryKey) (v : String),
      k ≠ .Name → v ∈ entries.filterMap (fun e => e.get k) →
      (entries.filterMap (fun e => e.get k)).Nodup →
      ((entries.filterMap (fun e => e.get k)).map ascii_formatter).Nodup →
      (∀ x ∈ entries.filterMap (fun e => e.get k), identOk (ascii_formatter x) = true) →
        languageCode entries k (ascii_formatter v) = some v
        ∧ languageFromStr entries k v = .ok (langPathName k, ascii_formatter v)
        ∧ (∀ s, s ∉ entries.filterMap (fun e => e.get k) →
            languageFromStr entries k s = .error (.InvalidLanguageCode s))) := by
  constructor
  · intro rows k r hk hr hraw hfmt hvi
    have hkn : k ≠ .Numeric := by rcases hk with rfl | rfl <;> simp
    have hrows1 := countryRows_identLit k k hk hkn rows hvi
    have htab1 := country_table_match rows (k, false) (some (k, true)) _ hrows1
    have hrows2 := countryRows_litIdent k k hkn hk rows hvi
    have htab2 := country_table_match rows (k, true) (some (k, false)) _ hrows2
    have hn1 : (rows.map (fun e =>
        Pat.variant (countryPathName k) (ascii_formatter (countryVal k e)))).Nodup :=
      nodup_map_comp _ (pat_variant_inj _) _ rows hfmt
    have hn2 : (rows.map (fun e => Pat.str (countryVal k e))).Nodup :=
      nodup_map_comp _ pat_str_inj _ rows hraw
    refine ⟨?_, ?_, ?_⟩
    · have hev := evalMatch_found
        (fun e => Pat.variant (countryPathName k) (ascii_formatter (countryVal k e)))
        (fun e => Exp.litStr (countryVal k e)) rows r
        (Scrut.variant (countryPathName k) (ascii_formatter (countryVal k r)))
        hr hn1 rfl false
      simp [countryCode, countryConvert, htab1, hev, matchLitStr]
    · have hev := evalMatch_found
        (fun e => Pat.str (countryVal k e))
        (fun e => Exp.someVariant (countryPathName k) (ascii_formatter (countryVal k e)))
        rows r (Scrut.str (countryVal k r)) hr hn2 rfl true
      simp [countryFromStr, countryConvert, htab2, hev, matchSomeVariant, okOr]
    · intro s hs
      have hnm : ∀ y ∈ rows, patMatches (Pat.str (countryVal k y)) (Scrut.str s) = false := by
        intro y hy
        simp [patMatches]
        exact fun he => hs (he ▸ List.mem_map_of_mem _ hy)
      have hev := evalMatch_notfound
        (fun e => Pat.str (countryVal k e))
        (fun e => Exp.someVariant (countryPathName k) (ascii_formatter (countryVal k e)))
        rows (Scrut.str s) hnm true
      simp [countryFromStr, countryConvert, htab2, hev, matchSomeVariant, okOr]
  · intro entries k v hk hv hraw hfmt hvi
    have hrows1 := languageRows_identLitSame k hk entries hvi
    have htab1 := language_table_match entries (k, false) (some (k, true)) _ hrows1
    have hrows2 := languageRows_litIdentSame k hk entries hvi
    have htab2 := language_table_match entries (k, true) (some (k, false)) _ hrows2
    have hn1 : ((entries.filterMap (fun e => e.get k)).map (fun v =>
        Pat.variant (langPathName k) (ascii_formatter v))).Nodup :=
      nodup_map_comp _ (pat_variant_inj _) _ _ hfmt
    have hn2 : ((entries.filterMap (fun e => e.get k)).map (fun v => Pat.str v)).Nodup :=
      hraw.map pat_str_inj
    refine ⟨?_, ?_, ?_⟩
    · have hev := evalMatch_found
        (fun v => Pat.variant (langPathName k) (ascii_formatter v))
        (fun v => Exp.litStr v) (entries.filterMap (fun e => e.get k)) v
        (Scrut.variant (langPathName k) (ascii_formatter v)) hv hn1 rfl false
      simp [languageCode, languageConvert, htab1, hev, matchLitStr]
    · have hev := evalMatch_found
        (fun v => Pat.str v)
        (fun v => Exp.someVariant (langPathName k) (ascii_formatter v))
        (entries.filterMap (fun e => e.get k)) v (Scrut.str v) hv hn2 rfl true
      simp [languageFromStr, languageConvert, htab2, hev, matchSomeVariant, okOr]
    · intro s hs
      have hnm : ∀ y ∈ entries.filterMap (fun e => e.get k),
          patMatches (Pat.str y) (Scrut.str s) = false := by
        intro y hy
        simp [patMatches]
        exact fun he => hs (he ▸ hy)
      have hev := evalMatch_notfound
        (fun v => Pat.str v)
        (fun v => Exp.someVariant (langPathName k) (ascii_formatter v))
        (entries.filterMap (fun e => e.get k)) (Scrut.str s) hnm true
      simp [languageFromStr, languageConvert, htab2, hev, matchSomeVariant, okOr]

/--
C6 witness: over `[usRow, caRow]` the alpha-2 variant `Us` has code `"US"`,
`"US"` parses back to `Us`, and `"ZZ"` is rejected; over `[engRow, fraRow]`
the `Iso639_1` variant `En` has code `"en"`, `"en"` parses back to `En`, and
`"xx"` is rejected.
-/
theorem c6_witness :
    countryCode [usRow, caRow] .Alpha2 "Us" = some "US"
    ∧ countryFromStr [usRow, caRow] .Alpha2 "US" = .ok ("Iso3166_1_alpha_2", "Us")
    ∧ countryFromStr [usRow, caRow] .Alpha2 "ZZ" = .error (.InvalidCountryCode "ZZ")
    ∧ languageCode [engRow, fraRow] .Iso639_1 "En" = some "en"
    ∧ languageFromStr [engRow, fraRow] .Iso639_1 "en" = .ok ("Iso639_1", "En")
    ∧ languageFromStr [engRow, fraRow] .Iso639_1 "xx"
        = .error (.InvalidLanguageCode "xx") := by
  have hc := c6_theorem.1 [usRow, caRow] .Alpha2 usRow (Or.inl rfl)
    (List.mem_cons_self usRow [caRow]) (by decide) (by decide) (by decide)
  have hl := c6_theorem.2 [engRow, fraRow] .Iso639_1 "en" (by decide) (by decide)
    (by decide) (by decide) (by decide)
  exact ⟨hc.1, hc.2.1, hc.2.2 "ZZ" (by decide), hl.1, hl.2.1, hl.2.2 "xx" (by decide)⟩

-- ### C5: country conversion round trips

/-- Distinct parsed numeric codes give distinct numeric-literal patterns. -/
theorem nodup_num_pats : ∀ (rows : List CountryEntry),
    (∀ e ∈ rows, (parseU16 e.country_code).isSome = true) →
    (rows.map (fun e => parseU16 e.country_code)).Nodup →
    (rows.map (fun e => Pat.num ((parseU16 e.country_code).getD 0))).Nodup := by
  intro rows
  induction rows with
  | nil => intro _ _; exact List.nodup_nil
  | cons e rest ih =>
    intro hp hn
    rw [List.map_cons, List.nodup_cons] at hn
    rw [List.map_cons, List.nodup_cons]
    obtain ⟨n, hne⟩ := Option.isSome_iff_exists.mp (hp e (List.mem_cons_self e rest))
    constructor
    · intro hmem
      obtain ⟨y, hy, heq⟩ := List.mem_map.mp hmem
      obtain ⟨m, hme⟩ := Option.isSome_iff_exists.mp (hp y (List.mem_cons_of_mem e hy))
      have h2 : (parseU16 y.country_code).getD 0 = (parseU16 e.country_code).getD 0 := by
        injection heq
      rw [hne, hme] at h2
      simp at h2
      apply hn.1
      have : parseU16 y.country_code = parseU16 e.country_code := by rw [hne, hme, h2]
      exact this ▸ List.mem_map_of_mem _ hy
    · exact ih (fun x hx => hp x (List.mem_cons_of_mem e hx)) hn.2

/--
C5: over a country dataset whose normalized alpha-2 names are pairwise
distinct, whose normalized alpha-3 names are pairwise distinct, and whose
numeric codes all parse as `u16` and are pairwise distinct, every alpha-2
variant converts to its alpha-3 variant and back to itself, and converts to
its numeric code and parses from that numeric code back to itself
(`Us → Usa → Us`, `Us → 840 → Us`).
-/
theorem c5_theorem (rows : List CountryEntry) (r : CountryEntry) (hr : r ∈ rows)
    (h2 : (rows.map (fun e => ascii_formatter e.alpha_2)).Nodup)
    (h3 : (rows.map (fun e => ascii_formatter e.alpha_3)).Nodup)
    (hv2 : ∀ e ∈ rows, identOk (ascii_formatter e.alpha_2) = true)
    (hv3 : ∀ e ∈ rows, identOk (ascii_formatter e.alpha_3) = true)
    (hp : ∀ e ∈ rows, (parseU16 e.country_code).isSome = true)
    (hn : (rows.map (fun e => parseU16 e.country_code)).Nodup) :
    countryFrom rows .Alpha2 .Alpha3 (ascii_formatter r.alpha_2)
      = some ("Iso3166_1_alpha_3", ascii_formatter r.alpha_3)
    ∧ countryFrom rows .Alpha3 .Alpha2 (ascii_formatter r.alpha_3)
      = some ("Iso3166_1_alpha_2", ascii_formatter r.alpha_2)
    ∧ ∃ n, parseU16 r.country_code = some n
        ∧ countryNumeric rows .Alpha2 (ascii_formatter r.alpha_2) = some n
        ∧ countryTryFromU16 rows .Alpha2 n
            = .ok ("Iso3166_1_alpha_2", ascii_formatter r.alpha_2) := by
  have hn2 : (rows.map (fun e =>
      Pat.variant (countryPathName .Alpha2) (ascii_formatter (countryVal .Alpha2 e)))).Nodup :=
    nodup_map_comp _ (pat_variant_inj _) _ rows h2
  have hn3 : (rows.map (fun e =>
      Pat.variant (countryPathName .Alpha3) (ascii_formatter (countryVal .Alpha3 e)))).Nodup :=
    nodup_map_comp _ (pat_variant_inj _) _ rows h3
  refine ⟨?_, ?_, ?_⟩
  · have hrows := countryRows_identIdent .Alpha2 .Alpha3 (Or.inl rfl) (Or.inr rfl) rows hv2 hv3
    have htab := country_table_match rows (.Alpha2, false) (some (.Alpha3, false)) _ hrows
    have hev := evalMatch_found
      (fun e => Pat.variant (countryPathName .Alpha2) (ascii_formatter (countryVal .Alpha2 e)))
      (fun e => Exp.variant (countryPathName .Alpha3) (ascii_formatter (countryVal .Alpha3 e)))
      rows r (Scrut.variant (countryPathName .Alpha2) (ascii_formatter (countryVal .Alpha2 r)))
      hr hn2 rfl false
    simp only [countryPathName, countryVal] at hev htab
    simp [countryFrom, countryConvert, countryPathName, htab, hev, matchVariant]
  · have hrows := countryRows_identIdent .Alpha3 .Alpha2 (Or.inr rfl) (Or.inl rfl) rows hv3 hv2
    have htab := country_table_match rows (.Alpha3, false) (some (.Alpha2, false)) _ hrows
    have hev := evalMatch_found
      (fun e => Pat.variant (countryPathName .Alpha3) (ascii_formatter (countryVal .Alpha3 e)))
      (fun e => Exp.variant (countryPathName .Alpha2) (ascii_formatter (countryVal .Alpha2 e)))
      rows r (Scrut.variant (countryPathName .Alpha3) (ascii_formatter (countryVal .Alpha3 r)))
      hr hn3 rfl false
    simp only [countryPathName, countryVal] at hev htab
    simp [countryFrom, countryConvert, countryPathName, htab, hev, matchVariant]
  · obtain ⟨n, hne⟩ := Option.isSome_iff_exists.mp (hp r hr)
    refine ⟨n, hne, ?_, ?_⟩
    · have hrows := countryRows_identNumLit .Alpha2 (Or.inl rfl) rows hv2 hp
      have htab := country_table_match rows (.Alpha2, false) (some (.Numeric, true)) _ hrows
      have hev := evalMatch_found
        (fun e => Pat.variant (countryPathName .Alpha2) (ascii_formatter (countryVal .Alpha2 e)))
        (fun e => Exp.litNum ((parseU16 e.country_code).getD 0))
        rows r (Scrut.variant (countryPathName .Alpha2) (ascii_formatter (countryVal .Alpha2 r)))
        hr hn2 rfl false
      simp only [countryPathName, countryVal] at hev htab
      simp [countryNumeric, countryConvert, countryPathName, htab, hev, matchLitNum, hne]
    · have hrows := countryRows_numLitIdent .Alpha2 (Or.inl rfl) rows hv2 hp
      have htab := country_table_match rows (.Numeric, true) (some (.Alpha2, false)) _ hrows
      have hnnum := nodup_num_pats rows hp hn
      have hev := evalMatch_found
        (fun e => Pat.num ((parseU16 e.country_code).getD 0))
        (fun e => Exp.someVariant (countryPathName .Alpha2)
          (ascii_formatter (countryVal .Alpha2 e)))
        rows r (Scrut.num n) hr hnnum (by simp [scrutOfPat, hne]) true
      simp only [countryPathName, countryVal] at hev htab
      simp [countryTryFromU16, countryConvert, countryPathName, htab, hev, matchSomeVariant,
        okOr]

/-- C5 witness: the doctest round trip `Us → Usa → Us` and `Us → 840 → Us`. -/
theorem c5_witness :
    countryFrom [usRow, caRow] .Alpha2 .Alpha3 "Us" = some ("Iso3166_1_alpha_3", "Usa")
    ∧ countryFrom [usRow, caRow] .Alpha3 .Alpha2 "Usa" = some ("Iso3166_1_alpha_2", "Us")
    ∧ countryNumeric [usRow, caRow] .Alpha2 "Us" = some 840
    ∧ countryTryFromU16 [usRow, caRow] .Alpha2 840 = .ok ("Iso3166_1_alpha_2", "Us") := by
  have h := c5_theorem [usRow, caRow] usRow (List.mem_cons_self _ _)
    (by decide) (by decide) (by decide) (by decide) (by decide) (by decide)
  obtain ⟨ha, hb, n, hne, hc, hd⟩ := h
  have h840 : parseU16 usRow.country_code = some 840 := by decide
  rw [h840] at hne
  injection hne with hnn
  exact ⟨ha, hb, hnn ▸ hc, hnn ▸ hd⟩

-- ### C7: the language line parsing rules

theorem listIndex_ok (l : List String) (i : Nat) (h : i < l.length) :
    listIndex l i = .ok (l.getD i "") := by
  simp [listIndex, List.getD_eq_getElem?_getD, List.get?_eq_getElem?, List.getElem?_eq_getElem h]

/-- Closed form of `buildLanguageEntry` on a line with at least 7 columns. -/
theorem buildLanguageEntry_ok (cols : List String) (h : 7 ≤ cols.length) :
    buildLanguageEntry cols = .ok ⟨some (cols.getD 0 ""),
      if (cols.getD 1 "").utf8ByteSize = 3 then some (cols.getD 1 "") else none,
      if (cols.getD 2 "").utf8ByteSize = 3 then some (cols.getD 2 "") else none,
      if (cols.getD 3 "").utf8ByteSize = 2 then some (cols.getD 3 "") else none,
      some (cols.getD 6 "")⟩ := by
  have h0 := listIndex_ok cols 0 (by omega)
  have h1 := listIndex_ok cols 1 (by omega)
  have h2 := listIndex_ok cols 2 (by omega)
  have h3 := listIndex_ok cols 3 (by omega)
  have h6 := listIndex_ok cols 6 (by omega)
  simp [buildLanguageEntry, h0, h1, h2, h3, h6, except_bind_ok, except_pure]

/--
C7 counterexample: the line whose second column is `"ém"` (two characters,
three UTF-8 bytes) gets an `Iso639_2b` entry although the column is not
exactly 3 characters long — the presence test `line[1].len() == 3` measures
UTF-8 bytes, not characters.
-/
theorem c7_counterexample :
    parse_language_table ["h", "abc\tém\txyz\tde\tp5\tp6\tNom"]
      = .ok [⟨some "abc", some "ém", some "xyz", some "de", some "Nom"⟩]
    ∧ ("ém".utf8ByteSize = 3 ∧ "ém".length = 2) :=
  ⟨rfl, by decide, by decide⟩

/--
C7 (amended): for every line after the first (the header, always skipped)
that splits into at least 7 tab-separated columns, the built record contains
Iso639_3 (column 0) and Name (column 6) always; Iso639_2b from column 1 only
when that column is exactly 3 UTF-8 bytes; Iso639_2t from column 2 only when
exactly 3 bytes; Iso639_1 from column 3 only when exactly 2 bytes; columns
beyond index 6 are ignored.
-/
theorem c7_theorem (lines : List String)
    (h : ∀ l ∈ lines.drop 1, 7 ≤ (rustSplit '\t' l).length) :
    parse_language_table lines = .ok ((lines.drop 1).map lineRecord) := by
  unfold parse_language_table
  generalize hls : lines.drop 1 = ls at h ⊢
  clear hls
  induction ls with
  | nil => rfl
  | cons l rest ih =>
    have hl := h l (List.mem_cons_self _ _)
    rw [parseLanguageLines]
    simp [buildLanguageEntry_ok _ hl, except_bind_ok, except_pure, lineRecord,
      ih (fun x hx => h x (List.mem_cons_of_mem _ hx))]

/-- C7 witness: the amended statement on a well-formed two-line table. -/
theorem c7_witness :
    parse_language_table [hdrLine, engLine] = .ok ([engLine].map lineRecord)
    ∧ lineRecord engLine
        = ⟨some "eng", some "eng", some "eng", some "en", some "English"⟩ :=
  ⟨c7_theorem [hdrLine, engLine] (by decide), by decide⟩

-- ### C10: the country emitter's panic conditions

/--
Any request placing the `Numeric` or `Name` key in identifier position, or
using it in a unary request, panics on every row.
-/
theorem countryRow_panics (lhs : CountryIdentifierKey × Bool)
    (rhs : Option (CountryIdentifierKey × Bool)) (e : CountryEntry)
    (hcond : (rhs = none ∧ (lhs.fst = .Numeric ∨ lhs.fst = .Name))
      ∨ (lhs.snd = false ∧ (lhs.fst = .Numeric ∨ lhs.fst = .Name))
      ∨ (∃ k, rhs = some (k, false) ∧ (k = .Numeric ∨ k = .Name))) :
    ∃ msg, countryRow lhs rhs e = .error (.panicked msg) := by
  rcases lhs with ⟨lk, lb⟩
  rcases hcond with ⟨rfl, hk | hk⟩ | ⟨hb, hk | hk⟩ | ⟨k, rfl, hk | hk⟩
  · simp only at hk; subst hk; cases lb <;> exact ⟨_, rfl⟩
  · simp only at hk; subst hk; cases lb <;> exact ⟨_, rfl⟩
  · simp only at hb hk; subst hb; subst hk
    rcases rhs with _ | ⟨rk, rb⟩
    · exact ⟨_, rfl⟩
    · cases rb <;> exact ⟨_, rfl⟩
  · simp only at hb hk; subst hb; subst hk
    rcases rhs with _ | ⟨rk, rb⟩
    · exact ⟨_, rfl⟩
    · cases rb <;> exact ⟨_, rfl⟩
  · subst hk
    cases lb
    · cases lk
      case Numeric => exact ⟨_, rfl⟩
      case Name => exact ⟨_, rfl⟩
      case Alpha2 =>
        cases hI : identNew (ascii_formatter e.alpha_2) with
        | error g =>
          obtain ⟨m, rfl⟩ := identNew_error_panicked _ _ hI
          exact ⟨m, by simp [countryRow, countryIdentName, hI, except_bind_ok,
            except_bind_error]⟩
        | ok lv =>
          exact ⟨"numeric identifiers cannot be used as an identifier",
            by simp [countryRow, countryIdentName, hI, unwrapStr,
              CountryIdentifierKey.try_into_str, except_bind_ok, except_bind_error]⟩
      case Alpha3 =>
        cases hI : identNew (ascii_formatter e.alpha_3) with
        | error g =>
          obtain ⟨m, rfl⟩ := identNew_error_panicked _ _ hI
          exact ⟨m, by simp [countryRow, countryIdentName, hI, except_bind_ok,
            except_bind_error]⟩
        | ok lv =>
          exact ⟨"numeric identifiers cannot be used as an identifier",
            by simp [countryRow, countryIdentName, hI, unwrapStr,
              CountryIdentifierKey.try_into_str, except_bind_ok, except_bind_error]⟩
    · cases lk
      case Alpha2 => exact ⟨_, rfl⟩
      case Alpha3 => exact ⟨_, rfl⟩
      case Name => exact ⟨_, rfl⟩
      case Numeric =>
        cases hp : parseU16 e.country_code with
        | none =>
          exact ⟨"called `Result::unwrap()` on an `Err` value",
            by simp [countryRow, countryLiteralPat, hp, except_bind_error]⟩
        | some n =>
          exact ⟨"numeric identifiers cannot be used as an identifier",
            by simp [countryRow, countryLiteralPat, countryIdentName, hp,
              except_bind_ok, except_bind_error]⟩
  · subst hk
    cases lb
    · cases lk
      case Numeric => exact ⟨_, rfl⟩
      case Name => exact ⟨_, rfl⟩
      case Alpha2 =>
        cases hI : identNew (ascii_formatter e.alpha_2) with
        | error g =>
          obtain ⟨m, rfl⟩ := identNew_error_panicked _ _ hI
          exact ⟨m, by simp [countryRow, countryIdentName, hI, except_bind_ok,
            except_bind_error]⟩
        | ok lv =>
          exact ⟨"names cannot be used as an identifier",
            by simp [countryRow, countryIdentName, hI, unwrapStr,
              CountryIdentifierKey.try_into_str, except_bind_ok, except_bind_error]⟩
      case Alpha3 =>
        cases hI : identNew (ascii_formatter e.alpha_3) with
        | error g =>
          obtain ⟨m, rfl⟩ := identNew_error_panicked _ _ hI
          exact ⟨m, by simp [countryRow, countryIdentName, hI, except_bind_ok,
            except_bind_error]⟩
        | ok lv =>
          exact ⟨"names cannot be used as an identifier",
            by simp [countryRow, countryIdentName, hI, unwrapStr,
              CountryIdentifierKey.try_into_str, except_bind_ok, except_bind_error]⟩
    · cases lk
      case Alpha2 => exact ⟨_, rfl⟩
      case Alpha3 => exact ⟨_, rfl⟩
      case Name => exact ⟨_, rfl⟩
      case Numeric =>
        cases hp : parseU16 e.country_code with
        | none =>
          exact ⟨"called `Result::unwrap()` on an `Err` value",
            by simp [countryRow, countryLiteralPat, hp, except_bind_error]⟩
        | some n =>
          exact ⟨"names cannot be used as an identifier",
            by simp [countryRow, countryLiteralPat, countryIdentName, hp,
              except_bind_ok, except_bind_error]⟩

/--
Any binary request whose identifier sides use only `Alpha2`/`Alpha3` (keys
`Numeric` and `Name` at most as literals) succeeds on a row whose numeric
code parses and whose identifier-position values normalize to legal
identifiers.
-/
theorem countryRow_ok (lhs : CountryIdentifierKey × Bool) (k : CountryIdentifierKey)
    (b : Bool) (e : CountryEntry)
    (hl : lhs.snd = true ∨ lhs.fst = .Alpha2 ∨ lhs.fst = .Alpha3)
    (hr : b = true ∨ k = .Alpha2 ∨ k = .Alpha3)
    (hp : (parseU16 e.country_code).isSome = true)
    (hvl : lhs.snd = false → identOk (ascii_formatter (countryVal lhs.fst e)) = true)
    (hvr : b = false → identOk (ascii_formatter (countryVal k e)) = true) :
    exceptOk (countryRow lhs (some (k, b)) e) = true := by
  obtain ⟨n, hn⟩ := Option.isSome_iff_exists.mp hp
  rcases lhs with ⟨lk, lb⟩
  cases lb
  · simp only at hl hvl
    have hIl := identNew_ok _ (hvl trivial)
    rcases hl with hl | rfl | rfl
    · cases hl
    · simp only [countryVal] at hIl
      cases b
      · simp only at hvr
        have hIr := identNew_ok _ (hvr trivial)
        rcases hr with hr | rfl | rfl
        · cases hr
        · simp only [countryVal] at hIr
          simp [countryRow, countryIdentName, hIl, hIr, unwrapStr,
            CountryIdentifierKey.try_into_str, except_bind_ok, except_pure, exceptOk]
        · simp only [countryVal] at hIr
          simp [countryRow, countryIdentName, hIl, hIr, unwrapStr,
            CountryIdentifierKey.try_into_str, except_bind_ok, except_pure, exceptOk]
      · cases k <;>
          simp [countryRow, countryIdentName, hIl, unwrapStr,
            CountryIdentifierKey.try_into_str, countryLiteralExp, hn, except_bind_ok,
            except_pure, exceptOk]
    · simp only [countryVal] at hIl
      cases b
      · simp only at hvr
        have hIr := identNew_ok _ (hvr trivial)
        rcases hr with hr | rfl | rfl
        · cases hr
        · simp only [countryVal] at hIr
          simp [countryRow, countryIdentName, hIl, hIr, unwrapStr,
            CountryIdentifierKey.try_into_str, except_bind_ok, except_pure, exceptOk]
        · simp only [countryVal] at hIr
          simp [countryRow, countryIdentName, hIl, hIr, unwrapStr,
            CountryIdentifierKey.try_into_str, except_bind_ok, except_pure, exceptOk]
      · cases k <;>
          simp [countryRow, countryIdentName, hIl, unwrapStr,
            CountryIdentifierKey.try_into_str, countryLiteralExp, hn, except_bind_ok,
            except_pure, exceptOk]
  · cases b
    · simp only at hvr
      have hIr := identNew_ok _ (hvr trivial)
      rcases hr with hr | rfl | rfl
      · cases hr
      · simp only [countryVal] at hIr
        cases lk <;>
          simp [countryRow, countryLiteralPat, countryIdentName, hIr, unwrapStr,
            CountryIdentifierKey.try_into_str, hn, except_bind_ok, except_pure, exceptOk]
      · simp only [countryVal] at hIr
        cases lk <;>
          simp [countryRow, countryLiteralPat, countryIdentName, hIr, unwrapStr,
            CountryIdentifierKey.try_into_str, hn, except_bind_ok, except_pure, exceptOk]
    · cases lk <;> cases k <;>
        first
        | rfl
        | simp [countryRow, countryLiteralPat, countryLiteralExp, hn,
            except_bind_ok, except_pure, exceptOk]

/-- The row loop succeeds when every row succeeds. -/
theorem countryRows_ok (lhs : CountryIdentifierKey × Bool) (k : CountryIdentifierKey)
    (b : Bool)
    (hl : lhs.snd = true ∨ lhs.fst = .Alpha2 ∨ lhs.fst = .Alpha3)
    (hr : b = true ∨ k = .Alpha2 ∨ k = .Alpha3) :
    ∀ (rows : List CountryEntry), (∀ e ∈ rows, (parseU16 e.country_code).isSome = true) →
    (lhs.snd = false → ∀ e ∈ rows, identOk (ascii_formatter (countryVal lhs.fst e)) = true) →
    (b = false → ∀ e ∈ rows, identOk (ascii_formatter (countryVal k e)) = true) →
    exceptOk (countryRows lhs (some (k, b)) rows) = true := by
  intro rows
  induction rows with
  | nil => intro _ _ _; rfl
  | cons e rest ih =>
    intro hp hvl hvr
    have hrow := countryRow_ok lhs k b e hl hr (hp e (List.mem_cons_self e rest))
      (fun hbf => hvl hbf e (List.mem_cons_self e rest))
      (fun hbf => hvr hbf e (List.mem_cons_self e rest))
    cases hcase : countryRow lhs (some (k, b)) e with
    | error e1 => rw [hcase] at hrow; cases hrow
    | ok f =>
      have hrest := ih (fun x hx => hp x (List.mem_cons_of_mem e hx))
        (fun hbf x hx => hvl hbf x (List.mem_cons_of_mem e hx))
        (fun hbf x hx => hvr hbf x (List.mem_cons_of_mem e hx))
      cases hcase2 : countryRows lhs (some (k, b)) rest with
      | error e2 => rw [hcase2] at hrest; cases hrest
      | ok fs =>
        simp [countryRows, hcase, hcase2, except_bind_ok, except_pure, exceptOk]

/--
C10: over a non-empty country dataset, every generation request in which the
`Numeric` or `Name` key appears as a symbolic-identifier side, or in which a
unary request names `Numeric` or `Name`, aborts generation by panicking; and
every binary request that confines `Numeric`/`Name` to literal-producing
sides generates successfully, when the numeric codes parse and the
identifier-position values normalize to legal identifiers.
-/
theorem c10_theorem :
    (∀ (rows : List CountryEntry) (inp : GenerationInput CountryIdentifierKey),
      rows ≠ [] →
      ((inp.rhs = none ∧ (inp.lhs.fst = .Numeric ∨ inp.lhs.fst = .Name))
       ∨ (inp.lhs.snd = false ∧ (inp.lhs.fst = .Numeric ∨ inp.lhs.fst = .Name))
       ∨ (∃ k, inp.rhs = some (k, false) ∧ (k = .Numeric ∨ k = .Name))) →
      isPanicResult (country_identifiers_from_table rows inp) = true)
    ∧ (∀ (rows : List CountryEntry) (inp : GenerationInput CountryIdentifierKey)
        (k : CountryIdentifierKey) (b : Bool),
      inp.rhs = some (k, b) →
      (inp.lhs.snd = true ∨ inp.lhs.fst = .Alpha2 ∨ inp.lhs.fst = .Alpha3) →
      (b = true ∨ k = .Alpha2 ∨ k = .Alpha3) →
      (∀ e ∈ rows, (parseU16 e.country_code).isSome = true) →
      (inp.lhs.snd = false →
        ∀ e ∈ rows, identOk (ascii_formatter (countryVal inp.lhs.fst e)) = true) →
      (b = false → ∀ e ∈ rows, identOk (ascii_formatter (countryVal k e)) = true) →
      isOkResult (country_identifiers_from_table rows inp) = true) := by
  constructor
  · intro rows inp hne hcond
    cases rows with
    | nil => exact absurd rfl hne
    | cons e rest =>
      obtain ⟨msg, hrow⟩ := countryRow_panics inp.lhs inp.rhs e hcond
      simp [country_identifiers_from_table, countryRows, hrow, except_bind_error,
        isPanicResult]
  · intro rows inp k b hrhs hl hr hp hvl hvr
    have hok := countryRows_ok inp.lhs k b hl hr rows hp hvl hvr
    rw [← hrhs] at hok
    cases hcase : countryRows inp.lhs inp.rhs rows with
    | error e1 => rw [hcase] at hok; cases hok
    | ok frags => simp [country_identifiers_from_table, hcase, isOkResult]

/--
C10 witness: the unary identifier request on `Numeric` panics over `[usRow]`;
the `numeric` accessor request (identifier alpha-2 to literal numeric)
generates successfully.
-/
theorem c10_witness :
    isPanicResult (country_identifiers_from_table [usRow]
      ⟨none, true, (CountryIdentifierKey.Numeric, false), none⟩) = true
    ∧ isOkResult (country_identifiers_from_table [usRow]
      (matchRequest (CountryIdentifierKey.Alpha2, false)
        (some (CountryIdentifierKey.Numeric, true)))) = true :=
  ⟨c10_theorem.1 [usRow] ⟨none, true, (CountryIdentifierKey.Numeric, false), none⟩
      (by simp) (Or.inl ⟨rfl, Or.inl rfl⟩),
   c10_theorem.2 [usRow] (matchRequest (CountryIdentifierKey.Alpha2, false)
      (some (CountryIdentifierKey.Numeric, true))) .Numeric true rfl
      (Or.inr (Or.inl rfl)) (Or.inl rfl) (by decide) (by decide) (by decide)⟩
